import Mathlib

/-!
# HCSR04Bridge: the measurement cycle and the SPI publisher of `main.c`

A shallow embedding of `src/main.c`.  The program variables and the AVR
registers the program touches are the fields of `State`; every statement
group of `main` and every interrupt handler is a function on `State`.
Machine integers are natural numbers reduced modulo `2^8` or `2^16` where the
C code can wrap.

Interleaving is modelled at two grains.  At the coarse grain an `Event` is
one interrupt handler run to completion (AVR handlers are not re-entered), one
whole pass of the `while` loop, or one of the straight-line blocks of `main`.
At the fine grain a `FineEvent` is one handler run to completion or one step
of `main`, where each test of the loop, each block that runs with interrupts
disabled and each remaining statement is a step of its own, so a handler can
run between a test and the `cli()` that follows it.
-/

namespace HCSR04Bridge

/-! ## Device constants

Bit numbers of the ATmega88PA registers, as given by the device header that
`<avr/io.h>` selects (the header belongs to avr-libc, not to this program). -/

/-- Input capture edge select, bit 6 of `TCCR1B`. -/
def ICES1 : Nat := 6
/-- Waveform generation mode bit 2 (CTC), bit 3 of `TCCR1B`. -/
def WGM12 : Nat := 3
/-- Clock select bit 1 (clk/8), bit 1 of `TCCR1B`. -/
def CS11 : Nat := 1
/-- Input capture interrupt enable, bit 5 of `TIMSK1`. -/
def ICIE1 : Nat := 5
/-- Output compare A match interrupt enable, bit 1 of `TIMSK1`. -/
def OCIE1A : Nat := 1
/-- Input capture flag, bit 5 of `TIFR1`. -/
def ICF1 : Nat := 5
/-- Output compare B match flag, bit 2 of `TIFR1`. -/
def OCF1B : Nat := 2
/-- Output compare A match flag, bit 1 of `TIFR1`. -/
def OCF1A : Nat := 1
/-- SPI interrupt enable, bit 7 of `SPCR`. -/
def SPIE : Nat := 7
/-- SPI enable, bit 6 of `SPCR`. -/
def SPE : Nat := 6
/-- SPI clock rate select 0, bit 0 of `SPCR`. -/
def SPR0 : Nat := 0
/-- Port D pin 0. -/
def PD0 : Nat := 0
/-- Port B pin 0. -/
def PB0 : Nat := 0
/-- Port B pin 4 (MISO). -/
def PB4 : Nat := 4

/-- The bit-value helper of avr-libc: `_BV(b)` is `1 << b`. -/
def BV (b : Nat) : Nat := 1 <<< b

/-! ## Defines of `main.c` (lines 25-30) -/

/-- Line 26: `#define TIMEOUT 40000`. -/
def TIMEOUT : Nat := 40000

/-- Line 27: `#define low(x) ((x) & 0x00FF)`. -/
def low (x : Nat) : Nat := x &&& 0x00FF

/-- Line 28: `#define high(x) (((x)>>8)& 0x00FF)`. -/
def high (x : Nat) : Nat := (x >>> 8) &&& 0x00FF

/-- Line 29: `#define TRIGGER PD0`. -/
def TRIGGER : Nat := PD0

/-- Line 30: `#define ECHO PB0`. -/
def ECHO : Nat := PB0

/-! ## Machine state -/

/-- The variables of the program and the registers it uses.

* `edgeDetect`, `conversionComplete` are the `volatile uint8_t` globals,
  `distance` the `volatile uint16_t` global (lines 36-38);
* `risingEdge`, `fallingEdge` are the `uint16_t` locals of `main`
  (lines 51-52), which never returns;
* `SREG_I` is the global interrupt enable flag written by `cli()`/`sei()`;
* the remaining fields are the I/O registers named in the source; `SPDR`
  holds the byte the SPI shift register will shift out on the next transfer;
* `distanceLog` is a history variable: the values assigned to `distance`, in
  order.  It is appended to at the two assignments to `distance`
  (lines 86 and 133) and read by no code. -/
structure State where
  edgeDetect : Nat
  conversionComplete : Nat
  distance : Nat
  risingEdge : Nat
  fallingEdge : Nat
  SREG_I : Bool
  DDRD : Nat
  DDRB : Nat
  PORTD : Nat
  SPCR : Nat
  SPDR : Nat
  OCR1A : Nat
  TCCR1B : Nat
  TIFR1 : Nat
  TIMSK1 : Nat
  TCNT1 : Nat
  ICR1 : Nat
  distanceLog : List Nat
  deriving DecidableEq, Repr

/-- The state at power-on reset: the globals hold their initialisers
(lines 36-38), the registers their reset value 0, interrupts are disabled. -/
def resetState : State :=
  { edgeDetect := 0, conversionComplete := 0, distance := 0,
    risingEdge := 0, fallingEdge := 0, SREG_I := false,
    DDRD := 0, DDRB := 0, PORTD := 0, SPCR := 0, SPDR := 0, OCR1A := 0,
    TCCR1B := 0, TIFR1 := 0, TIMSK1 := 0, TCNT1 := 0, ICR1 := 0,
    distanceLog := [] }

/-- The instruction `cli()`: clear the global interrupt enable flag. -/
def cli (s : State) : State := { s with SREG_I := false }

/-- The instruction `sei()`: set the global interrupt enable flag. -/
def sei (s : State) : State := { s with SREG_I := true }

/-! ## `time_stamp` (lines 110-121) -/

/-- The function `time_stamp(uint8_t c)`.  Case 0 increments `edgeDetect`
(a `uint8_t`, so modulo 256) and clears bit `ICES1` of `TCCR1B`; case 1 sets
`edgeDetect` to 0; any other argument falls through the `switch`.  The
result is the input capture register `ICR1`. -/
def time_stamp (c : Nat) (s : State) : Nat × State :=
  let s1 : State :=
    if c = 0 then
      { s with edgeDetect := (s.edgeDetect + 1) % 256,
               TCCR1B := s.TCCR1B &&& (255 ^^^ BV ICES1) }
    else if c = 1 then
      { s with edgeDetect := 0 }
    else s
  (s1.ICR1, s1)

/-! ## Interrupt handlers (lines 124-139) -/

/-- The handler `ISR(SPI_STC_vect)`, lines 124-126: `SPDR = high(distance)`. -/
def ISR_SPI_STC_vect (s : State) : State :=
  { s with SPDR := high s.distance }

/-- The handler `ISR(TIMER1_COMPA_vect)`, lines 129-135. -/
def ISR_TIMER1_COMPA_vect (s : State) : State :=
  { s with conversionComplete := 1,
           edgeDetect := 0,
           SPDR := 0,
           distance := 0,
           distanceLog := s.distanceLog ++ [0] }

/-- The handler `ISR(TIMER1_CAPT_vect)`, lines 137-139: `edgeDetect++`. -/
def ISR_TIMER1_CAPT_vect (s : State) : State :=
  { s with edgeDetect := (s.edgeDetect + 1) % 256 }

/-! ## The blocks of `main` (lines 40-103) -/

/-- Lines 43-55: hardware initialisation before the main loop. -/
def main_init (s : State) : State :=
  let s := cli s
  let s := { s with DDRD := BV TRIGGER }
  let s := { s with DDRB := BV PB4 }
  let s := { s with SPCR := BV SPIE ||| BV SPE ||| BV SPR0 }
  let s := { s with SPDR := 0 }
  let s := { s with OCR1A := TIMEOUT }
  let s := { s with risingEdge := 0 }
  let s := { s with fallingEdge := 0 }
  { s with DDRD := s.DDRD ||| BV TRIGGER }

/-- Lines 61 and 63: `PIND |= _BV(TRIGGER)`.  On this device a one written to
a bit of `PIND` toggles the same bit of `PORTD`; `pins` is the value the
read of `PIND` returned (0 when the statement is compiled to a single-bit
`sbi`, which reads nothing). -/
def togglePIND (pins : Nat) (s : State) : State :=
  { s with PORTD := s.PORTD ^^^ ((pins ||| BV TRIGGER) % 256) }

/-- Lines 57-64: the trigger pulse, two toggling writes 10 microseconds apart
with interrupts disabled.  `pins1` and `pins2` are the values read from
`PIND` by the two read-modify-write statements. -/
def main_trigger (pins1 pins2 : Nat) (s : State) : State :=
  let s := cli s
  let s := togglePIND pins1 s
  let s := togglePIND pins2 s
  sei s

/-- Lines 68-72: start the timer for one cycle.  `TIFR1` flags are cleared by
writing a one to them, so the read-modify-write of line 70 clears every flag
that was set together with the three named ones. -/
def main_arm (s : State) : State :=
  let s := { s with TCCR1B := BV ICES1 ||| BV WGM12 ||| BV CS11 }
  let s := { s with TIFR1 := s.TIFR1 &&& (255 ^^^ ((s.TIFR1 ||| (BV ICF1 ||| BV OCF1B ||| BV OCF1A)) % 256)) }
  { s with TIMSK1 := BV ICIE1 ||| BV OCIE1A }

/-- Lines 78-90: the body of the polling loop.  `edgeDetect` is volatile, so
the second `if` reads the value left by the first. -/
def main_loopBody (s : State) : State :=
  let s :=
    if s.edgeDetect = 1 then
      let s := cli s
      let r := time_stamp 0 s
      let s := { r.2 with risingEdge := r.1 }
      sei s
    else s
  if s.edgeDetect = 3 then
    let s := cli s
    let r := time_stamp 1 s
    let s := { r.2 with fallingEdge := r.1 }
    let d := (s.fallingEdge + 65536 - s.risingEdge) % 65536
    let s := { s with distance := d, distanceLog := s.distanceLog ++ [d] }
    let s := { s with SPDR := low s.distance }
    let s := { s with conversionComplete := 1 }
    sei s
  else s

/-- Line 77: the loop condition `conversionComplete == 0`. -/
def main_loopCond (s : State) : Bool := s.conversionComplete == 0

/-- One pass of the loop of lines 77-91: the condition is evaluated and the
body runs when it holds. -/
def main_pollPass (s : State) : State :=
  if main_loopCond s then main_loopBody s else s

/-- The loop of lines 77-91 run with no interrupt arriving, for at most
`fuel` evaluations of the condition; `none` when the fuel runs out before the
condition turns false. -/
def main_busyWait : Nat → State → Option State
  | 0, _ => none
  | fuel + 1, s => if main_loopCond s then main_busyWait fuel (main_loopBody s) else some s

/-- Lines 95-100: stop and reset the timer after the loop has exited. -/
def main_teardown (s : State) : State :=
  let s := { s with conversionComplete := 0 }
  let s := { s with TCCR1B := 0x00 }
  let s := cli s
  let s := { s with TCNT1 := 0x0000 }
  let s := sei s
  { s with TIMSK1 := 0x00 }

/-! ## Hardware events -/

/-- An input capture: the timer copies its counter (here `icr`, reduced to
16 bits) into `ICR1`, and the capture handler runs. -/
def captureEvent (icr : Nat) (s : State) : State :=
  ISR_TIMER1_CAPT_vect { s with ICR1 := icr % 65536 }

/-- One byte transaction on the SPI bus: the master clocks out the byte held
in `SPDR` while shifting its own byte `mosi` in, and on completion the
transfer-complete handler runs.  The result is the byte the master received
and the state after the handler. -/
def spiTransfer (mosi : Nat) (s : State) : Nat × State :=
  (s.SPDR, ISR_SPI_STC_vect { s with SPDR := mosi % 256 })

/-- Consecutive byte transactions, one per element of `mosi`, with nothing in
between; the bytes received by the master are returned in order. -/
def spiPolls : List Nat → State → List Nat × State
  | [], s => ([], s)
  | m :: ms, s =>
    let r := spiTransfer m s
    let rest := spiPolls ms r.2
    (r.1 :: rest.1, rest.2)

/-- The capture interrupt can be delivered: global enable and `ICIE1` set. -/
def captureIntEnabled (s : State) : Bool := s.SREG_I && s.TIMSK1.testBit ICIE1

/-- The compare-match (timeout) interrupt can be delivered: global enable and
`OCIE1A` set. -/
def timeoutIntEnabled (s : State) : Bool := s.SREG_I && s.TIMSK1.testBit OCIE1A

/-- The timer is counting: some clock-select bit (bits 2..0 of `TCCR1B`) is set. -/
def timerRunning (s : State) : Bool := s.TCCR1B % 8 != 0

/-- The units of interleaving. -/
inductive Event where
  | capture (icr : Nat)
  | timeout
  | transfer (mosi : Nat)
  | pass
  | trigger (pins1 pins2 : Nat)
  | arm
  | teardown
  deriving DecidableEq, Repr

/-- The effect of one event on the state. -/
def step (s : State) : Event → State
  | .capture icr => captureEvent icr s
  | .timeout => ISR_TIMER1_COMPA_vect s
  | .transfer mosi => (spiTransfer mosi s).2
  | .pass => main_pollPass s
  | .trigger pins1 pins2 => main_trigger pins1 pins2 s
  | .arm => main_arm s
  | .teardown => main_teardown s

/-- The state after a sequence of events, first event first. -/
def run (evs : List Event) (s : State) : State := evs.foldl step s

/-- The bytes the bus master receives during a sequence of events: one byte,
the content of `SPDR` at that moment, for every transfer. -/
def misoTrace : List Event → State → List Nat
  | [], _ => []
  | .transfer mosi :: evs, s =>
    (spiTransfer mosi s).1 :: misoTrace evs (step s (.transfer mosi))
  | e :: evs, s => misoTrace evs (step s e)

/-- The state in which the first busy-wait starts: reset, initialisation,
trigger pulse, timer armed (lines 43-72). -/
def armedState : State := main_arm (main_trigger 0 0 (main_init resetState))

/-- The two-edge sequence of one cycle: capture at tick `r`, a run of the loop
body, capture at tick `f`, a run of the loop body. -/
def twoEdgeCycle (r f : Nat) (s : State) : State :=
  main_loopBody (captureEvent f (main_loopBody (captureEvent r s)))

/-- Scenario 1: from the armed state, a capture at tick 100, a pass of the
loop, a capture at tick 1500 and another pass of the loop. -/
def resolved1400 : State :=
  run [.capture 100, .pass, .capture 1500, .pass] armedState

/-- The event is a pass of the loop that runs the resolve branch: the loop
condition holds and `edgeDetect` is 3. -/
def resolvesAt (s : State) : Event → Bool
  | .pass => s.conversionComplete == 0 && s.edgeDetect == 3
  | _ => false

/-- No pass of the sequence runs the resolve branch. -/
def noResolve : List Event → State → Bool
  | [], _ => true
  | e :: evs, s => !resolvesAt s e && noResolve evs (step s e)

/-- Scenario of a pair read across a cycle boundary, continuing scenario 1:
three polls, then teardown, trigger, arming and a second cycle with edges at
ticks 200 and 1000, then a fourth poll. -/
def pairAcrossCycles : List Event :=
  [.transfer 0, .transfer 0, .transfer 0, .teardown, .trigger 0 0, .arm,
   .capture 200, .pass, .capture 1000, .pass, .transfer 0]

/-- The publisher relation between `SPDR` and `distance`: the byte waiting in
`SPDR` is the low or the high byte of the current `distance`. -/
def servesCurrentDistance (s : State) : Prop :=
  s.SPDR = low s.distance ∨ s.SPDR = high s.distance

/-- Scenario 1 followed by a further capture at tick 1600, delivered after
the resolve branch has run and before the teardown. -/
def resolvedThenCapture : State :=
  run [.capture 100, .pass, .capture 1500, .pass, .capture 1600] armedState

/-- The write history of one cycle relative to the history `log0` at its
start: while `conversionComplete` is 0 nothing has been appended, and once it
is 1 exactly one value has been appended, which is the current `distance`. -/
def writtenAtMostOnce (log0 : List Nat) (t : State) : Prop :=
  (t.conversionComplete = 0 ∧ t.distanceLog = log0) ∨
  (t.conversionComplete = 1 ∧ ∃ d, t.distanceLog = log0 ++ [d] ∧ t.distance = d)

/-- The event completes a cycle: it is the timeout handler or a pass of the
loop that runs the resolve branch. -/
def completesAt (s : State) : Event → Bool
  | .timeout => true
  | e => resolvesAt s e

/-- No event of the sequence completes a cycle. -/
def noCompletion : List Event → State → Bool
  | [], _ => true
  | e :: evs, s => !completesAt s e && noCompletion evs (step s e)

/-- The number of byte transactions in a sequence of events. -/
def countTransfers : List Event → Nat
  | [] => 0
  | .transfer _ :: evs => countTransfers evs + 1
  | _ :: evs => countTransfers evs

/-- Line 25, the comment `TIMEOUT should be set at (.0185*fclk)/8`: the value
it prescribes for a clock of `fclk` Hz, as a rational number. -/
def timeoutFormula (fclk : ℚ) : ℚ := (0.0185 * fclk) / 8

/-- Line 16, the comment `code good at 16 MHz`: the documented clock in Hz. -/
def documentedClock : ℚ := 16000000

/-- The armed state after 255 capture interrupts with no pass of the loop in
between: `edgeDetect` has reached the largest `uint8_t` value. -/
def edgeDetect255 : State := run (List.replicate 255 (Event.capture 0)) armedState

/-- The bytes a master receives over `n` transactions when the first returns
`first` and every later one returns `later`. -/
def firstThenLater (first later : Nat) : Nat → List Nat
  | 0 => []
  | n + 1 => first :: List.replicate n later

/-- Scenario of a stale rising-edge timestamp, continuing scenario 1 (which
left `risingEdge = 100`): in the next cycle two captures arrive before the
first pass, so the rising-edge branch is skipped, and the third capture, at
tick 50, brings `edgeDetect` to 3. -/
def staleRisingEdge : State :=
  run [.teardown, .trigger 0 0, .arm, .capture 30, .capture 40, .pass, .capture 50]
    resolved1400

/-! ## Interleaving at the grain of single statements

The main loop taken one step at a time: each test of lines 77, 78 and 83,
each block that runs with interrupts disabled (lines 57-64, 79-81, 84-89,
97-99) and each remaining statement is one step, and an interrupt handler
can run between any two steps. -/

/-- Lines 79-81: the rising-edge branch, run with interrupts disabled. -/
def main_risingBranch (s : State) : State :=
  let s := cli s
  let r := time_stamp 0 s
  let s := { r.2 with risingEdge := r.1 }
  sei s

/-- Lines 84-89: the resolve branch, run with interrupts disabled. -/
def main_resolveBranch (s : State) : State :=
  let s := cli s
  let r := time_stamp 1 s
  let s := { r.2 with fallingEdge := r.1 }
  let d := (s.fallingEdge + 65536 - s.risingEdge) % 65536
  let s := { s with distance := d, distanceLog := s.distanceLog ++ [d] }
  let s := { s with SPDR := low s.distance }
  let s := { s with conversionComplete := 1 }
  sei s

/-- Line 68: `TCCR1B = (1<<ICES1) | (1<<WGM12) | (1<<CS11)`. -/
def main_arm68 (s : State) : State :=
  { s with TCCR1B := BV ICES1 ||| BV WGM12 ||| BV CS11 }

/-- Line 70: `TIFR1 |= (1<<ICF1) | (1<<OCF1B) | (1<<OCF1A)`. -/
def main_arm70 (s : State) : State :=
  { s with TIFR1 := s.TIFR1 &&& (255 ^^^ ((s.TIFR1 ||| (BV ICF1 ||| BV OCF1B ||| BV OCF1A)) % 256)) }

/-- Line 72: `TIMSK1 = (1<<ICIE1) | (1<<OCIE1A)`. -/
def main_arm72 (s : State) : State :=
  { s with TIMSK1 := BV ICIE1 ||| BV OCIE1A }

/-- Line 95: `conversionComplete = 0`. -/
def main_td95 (s : State) : State := { s with conversionComplete := 0 }

/-- Line 96: `TCCR1B = 0x00`. -/
def main_td96 (s : State) : State := { s with TCCR1B := 0x00 }

/-- Lines 97-99: `cli(); TCNT1 = 0x0000; sei();`. -/
def main_td97 (s : State) : State :=
  let s := cli s
  let s := { s with TCNT1 := 0x0000 }
  sei s

/-- Line 100: `TIMSK1 = 0x00`. -/
def main_td100 (s : State) : State := { s with TIMSK1 := 0x00 }

/-- The point `main` has reached: the statement it executes next. -/
inductive Loc where
  | trigger
  | arm68
  | arm70
  | arm72
  | atWhile
  | atIf1
  | inRising
  | atIf2
  | inResolve
  | td95
  | td96
  | td97
  | td100
  | quiet
  deriving DecidableEq, Repr

/-- A configuration: where `main` is, and the machine state. -/
structure Config where
  loc : Loc
  st : State
  deriving DecidableEq, Repr

/-- One step of `main`.  `trigger` is the pulse block of lines 57-64 (with
the two `PIND` reads `p1`, `p2`), `atWhile`, `atIf1`, `atIf2` are the tests of
lines 77, 78, 83, `inRising` and `inResolve` the two branches after their test
has succeeded, `quiet` the delay of line 101 before the loop starts over. -/
def mainStep (p1 p2 : Nat) (c : Config) : Config :=
  match c.loc with
  | .trigger => ⟨.arm68, main_trigger p1 p2 c.st⟩
  | .arm68 => ⟨.arm70, main_arm68 c.st⟩
  | .arm70 => ⟨.arm72, main_arm70 c.st⟩
  | .arm72 => ⟨.atWhile, main_arm72 c.st⟩
  | .atWhile => if main_loopCond c.st then ⟨.atIf1, c.st⟩ else ⟨.td95, c.st⟩
  | .atIf1 => if c.st.edgeDetect = 1 then ⟨.inRising, c.st⟩ else ⟨.atIf2, c.st⟩
  | .inRising => ⟨.atIf2, main_risingBranch c.st⟩
  | .atIf2 => if c.st.edgeDetect = 3 then ⟨.inResolve, c.st⟩ else ⟨.atWhile, c.st⟩
  | .inResolve => ⟨.atWhile, main_resolveBranch c.st⟩
  | .td95 => ⟨.td96, main_td95 c.st⟩
  | .td96 => ⟨.td97, main_td96 c.st⟩
  | .td97 => ⟨.td100, main_td97 c.st⟩
  | .td100 => ⟨.quiet, main_td100 c.st⟩
  | .quiet => ⟨.trigger, c.st⟩

/-- The units of interleaving at this grain: an interrupt handler run to
completion, or one step of `main`. -/
inductive FineEvent where
  | capture (icr : Nat)
  | timeout
  | transfer (mosi : Nat)
  | main (p1 p2 : Nat)
  deriving DecidableEq, Repr

/-- The effect of one fine-grained event: a handler changes the state and
leaves `main` where it is. -/
def fineStep (c : Config) : FineEvent → Config
  | .capture icr => ⟨c.loc, captureEvent icr c.st⟩
  | .timeout => ⟨c.loc, ISR_TIMER1_COMPA_vect c.st⟩
  | .transfer mosi => ⟨c.loc, (spiTransfer mosi c.st).2⟩
  | .main p1 p2 => mainStep p1 p2 c

/-- The configuration after a sequence of fine-grained events. -/
def fineRun (evs : List FineEvent) (c : Config) : Config := evs.foldl fineStep c

/-- The bytes the bus master receives during a sequence of fine-grained
events. -/
def fineMiso : List FineEvent → Config → List Nat
  | [], _ => []
  | .transfer mosi :: evs, c =>
    (spiTransfer mosi c.st).1 :: fineMiso evs (fineStep c (.transfer mosi))
  | e :: evs, c => fineMiso evs (fineStep c e)

/-- The number of byte transactions in a sequence of fine-grained events. -/
def countFineTransfers : List FineEvent → Nat
  | [] => 0
  | .transfer _ :: evs => countFineTransfers evs + 1
  | _ :: evs => countFineTransfers evs

/-- The number of timeout interrupts in a sequence of fine-grained events. -/
def countTimeouts : List FineEvent → Nat
  | [] => 0
  | .timeout :: evs => countTimeouts evs + 1
  | _ :: evs => countTimeouts evs

/-- The fine-grained event completes a cycle: it is the timeout handler, or
the step of `main` that runs the resolve branch. -/
def completesFine (c : Config) : FineEvent → Bool
  | .timeout => true
  | .main _ _ => c.loc == Loc.inResolve
  | _ => false

/-- No event of the fine-grained sequence completes a cycle. -/
def noFineCompletion : List FineEvent → Config → Bool
  | [], _ => true
  | e :: evs, c => !completesFine c e && noFineCompletion evs (fineStep c e)

/-- The step leaves the cycle: `main` moves on from the delay of line 101 to
the trigger pulse of the next cycle. -/
def leavesCycle (c : Config) : FineEvent → Bool
  | .main _ _ => c.loc == Loc.quiet
  | _ => false

/-- The sequence stays within one cycle: `main` never moves on from the delay
of line 101. -/
def withinCycle : List FineEvent → Config → Bool
  | [], _ => true
  | e :: evs, c => !leavesCycle c e && withinCycle evs (fineStep c e)

/-- The configuration in which the program enters its main loop: the state
after initialisation, with the trigger pulse of line 57 next. -/
def startConfig : Config := ⟨Loc.trigger, main_init resetState⟩

/-- The steps of `main` and the captures of scenario 1 at this grain: trigger
pulse, arming, a capture at tick 100, the pass that runs the rising-edge
branch, a capture at tick 1500, and the tests of the next pass up to the
successful test of line 83. -/
def fineScenarioToResolveTest : List FineEvent :=
  [.main 0 0, .main 0 0, .main 0 0, .main 0 0,
   .capture 100, .main 0 0, .main 0 0, .main 0 0, .main 0 0,
   .capture 1500, .main 0 0, .main 0 0, .main 0 0]

/-- Whether `main` is past line 95 of the teardown. -/
def afterClear : Loc → Bool
  | .td96 => true
  | .td97 => true
  | .td100 => true
  | .quiet => true
  | _ => false

/-- The resolve branch has run in this cycle and cannot run again: `main` is
at the loop test with `conversionComplete` raised, or in the teardown, or at
the delay that follows it. -/
def resolveDone (c : Config) : Prop :=
  (c.loc = Loc.atWhile ∧ c.st.conversionComplete ≠ 0) ∨ c.loc = Loc.td95 ∨
    afterClear c.loc = true

/-- The write history of a cycle in which no timeout interrupt has been
delivered, relative to the history `log0` at its start, by the point `main`
has reached: nothing written before the resolve branch has run, exactly one
value, the current `distance`, from then on. -/
def cycleInvNoTimeout (log0 : List Nat) (c : Config) : Prop :=
  match c.loc with
  | .trigger => False
  | .atWhile => writtenAtMostOnce log0 c.st
  | .td95 =>
    c.st.conversionComplete = 1 ∧ ∃ d, c.st.distanceLog = log0 ++ [d] ∧ c.st.distance = d
  | .td96 | .td97 | .td100 | .quiet =>
    c.st.conversionComplete = 0 ∧ ∃ d, c.st.distanceLog = log0 ++ [d] ∧ c.st.distance = d
  | _ => c.st.conversionComplete = 0 ∧ c.st.distanceLog = log0

/-- One whole cycle of scenario 1 at the grain of single statements, from
line 68: arming, a capture at tick 100, the pass that runs the rising-edge
branch, a capture at tick 1500, a byte transaction, the pass that runs the
resolve branch, the loop test that exits, and the teardown. -/
def fineScenarioCycle : List FineEvent :=
  [.main 0 0, .main 0 0, .main 0 0,
   .capture 100, .main 0 0, .main 0 0, .main 0 0, .main 0 0,
   .capture 1500, .transfer 0, .main 0 0, .main 0 0, .main 0 0, .main 0 0,
   .main 0 0,
   .main 0 0, .main 0 0, .main 0 0, .main 0 0]

/-- The history that leads to the end of scenario 1, from the state after
initialisation. -/
def scenario1Events : List Event :=
  [.trigger 0 0, .arm, .capture 100, .pass, .capture 1500, .pass]

/-- Events between the two transfers of a pair, none of them a completion:
the teardown, the trigger pulse, arming, a capture and the rising-edge pass
of the next cycle. -/
def eventsBetweenPair : List Event :=
  [.teardown, .trigger 0 0, .arm, .capture 200, .pass]

/-! ## Byte macros -/

theorem low_eq_mod (x : Nat) : low x = x % 256 := by
  have h := Nat.and_pow_two_sub_one_eq_mod x 8
  simpa [low] using h

theorem high_eq_div_mod (x : Nat) : high x = x / 256 % 256 := by
  have h := Nat.and_pow_two_sub_one_eq_mod (x >>> 8) 8
  have h2 : x >>> 8 = x / 256 := by simp [Nat.shiftRight_eq_div_pow]
  simpa [high, h2] using h

theorem high_zero : high 0 = 0 := by decide

theorem low_zero : low 0 = 0 := by decide

/-! ## The polling-loop body, branch by branch -/

/-- With `edgeDetect = 1` the body runs the rising-edge branch only. -/
theorem loopBody_rising (s : State) (h : s.edgeDetect = 1) :
    main_loopBody s =
      { s with edgeDetect := 2, TCCR1B := s.TCCR1B &&& (255 ^^^ BV ICES1),
               risingEdge := s.ICR1, SREG_I := true } := by
  simp [main_loopBody, time_stamp, cli, sei, h]

/-- With `edgeDetect = 3` the body runs the resolve branch only. -/
theorem loopBody_resolve (s : State) (h : s.edgeDetect = 3) :
    main_loopBody s =
      { s with edgeDetect := 0, fallingEdge := s.ICR1,
               distance := (s.ICR1 + 65536 - s.risingEdge) % 65536,
               distanceLog := s.distanceLog ++ [(s.ICR1 + 65536 - s.risingEdge) % 65536],
               SPDR := low ((s.ICR1 + 65536 - s.risingEdge) % 65536),
               conversionComplete := 1, SREG_I := true } := by
  simp [main_loopBody, time_stamp, cli, sei, h]

/-- With `edgeDetect` neither 1 nor 3 the body changes nothing. -/
theorem loopBody_idle (s : State) (h1 : s.edgeDetect ≠ 1) (h3 : s.edgeDetect ≠ 3) :
    main_loopBody s = s := by
  simp [main_loopBody, h1, h3]

/-! ## Claims -/

/-- C1: for 16-bit ticks `r ≤ f`, from `edgeDetect = 0` and
`conversionComplete = 0`, a capture with `ICR1 = r`, a run of the loop body, a
capture with `ICR1 = f` and another run of the loop body leave
`distance = f - r` exactly and `conversionComplete = 1`; the loop condition
holds before each of the two runs of the body. -/
theorem two_edge_cycle_distance (s : State) (r f : Nat)
    (hr : r < 65536) (hf : f < 65536) (hrf : r ≤ f)
    (hE : s.edgeDetect = 0) (hC : s.conversionComplete = 0) :
    main_loopCond (captureEvent r s) = true ∧
    main_loopCond (captureEvent f (main_loopBody (captureEvent r s))) = true ∧
    (twoEdgeCycle r f s).distance = f - r ∧
    (twoEdgeCycle r f s).conversionComplete = 1 := by
  have e1 : (captureEvent r s).edgeDetect = 1 := by
    simp [captureEvent, ISR_TIMER1_CAPT_vect, hE]
  have b1 := loopBody_rising (captureEvent r s) e1
  have e3 : (captureEvent f (main_loopBody (captureEvent r s))).edgeDetect = 3 := by
    rw [b1]; simp [captureEvent, ISR_TIMER1_CAPT_vect]
  have b3 := loopBody_resolve _ e3
  have hr' : r % 65536 = r := Nat.mod_eq_of_lt hr
  have hf' : f % 65536 = f := Nat.mod_eq_of_lt hf
  refine ⟨?_, ?_, ?_, ?_⟩
  · simp [main_loopCond, captureEvent, ISR_TIMER1_CAPT_vect, hC]
  · rw [b1]; simp [main_loopCond, captureEvent, ISR_TIMER1_CAPT_vect, hC]
  · unfold twoEdgeCycle
    rw [b3, b1]
    simp [captureEvent, ISR_TIMER1_CAPT_vect, hr', hf']
    omega
  · unfold twoEdgeCycle
    rw [b3]

/-- Witness for C1 at rising tick 100 and falling tick 1500 from the armed
state. -/
theorem two_edge_cycle_distance_witness :
    (100 < 65536 ∧ 1500 < 65536 ∧ 100 ≤ 1500 ∧
      armedState.edgeDetect = 0 ∧ armedState.conversionComplete = 0) ∧
    (main_loopCond (captureEvent 100 armedState) = true ∧
      main_loopCond (captureEvent 1500 (main_loopBody (captureEvent 100 armedState))) = true ∧
      (twoEdgeCycle 100 1500 armedState).distance = 1500 - 100 ∧
      (twoEdgeCycle 100 1500 armedState).conversionComplete = 1) :=
  ⟨⟨by decide, by decide, by decide, by decide, by decide⟩,
   two_edge_cycle_distance armedState 100 1500 (by decide) (by decide) (by decide)
      (by decide) (by decide)⟩

/-- C2: from every state the timeout handler leaves `distance = 0`,
`edgeDetect = 0` and `conversionComplete = 1`; the loop condition is then
false, so the busy-wait returns at its next evaluation of the condition
without running the body, and control reaches the teardown. -/
theorem timeout_handler_resolves (s : State) (fuel : Nat) :
    (ISR_TIMER1_COMPA_vect s).distance = 0 ∧
    (ISR_TIMER1_COMPA_vect s).edgeDetect = 0 ∧
    (ISR_TIMER1_COMPA_vect s).conversionComplete = 1 ∧
    main_loopCond (ISR_TIMER1_COMPA_vect s) = false ∧
    main_busyWait (fuel + 1) (ISR_TIMER1_COMPA_vect s) = some (ISR_TIMER1_COMPA_vect s) := by
  simp [ISR_TIMER1_COMPA_vect, main_loopCond, main_busyWait]

/-! ## Byte transactions -/

/-- A byte transaction changes `SPDR` only, leaving it at `high distance`. -/
theorem spiTransfer_state (m : Nat) (s : State) :
    (spiTransfer m s).2 = { s with SPDR := high s.distance } := by
  simp [spiTransfer, ISR_SPI_STC_vect]

/-- Consecutive transactions leave `distance` as it was. -/
theorem spiPolls_distance (ms : List Nat) (s : State) :
    (spiPolls ms s).2.distance = s.distance := by
  induction ms generalizing s with
  | nil => rfl
  | cons m ms ih => simp [spiPolls, ih, spiTransfer_state]

/-- One byte is received per transaction. -/
theorem spiPolls_length (ms : List Nat) (s : State) :
    (spiPolls ms s).1.length = ms.length := by
  induction ms generalizing s with
  | nil => rfl
  | cons m ms ih => simp [spiPolls, ih]

/-- When `SPDR` already holds `high distance`, every transaction returns it. -/
theorem spiPolls_steady (ms : List Nat) (s : State) (h : s.SPDR = high s.distance) :
    (spiPolls ms s).1 = List.replicate ms.length (high s.distance) := by
  induction ms generalizing s with
  | nil => rfl
  | cons m ms ih =>
    have h2 := ih (spiTransfer m s).2 (by simp [spiTransfer_state])
    have hd : (spiTransfer m s).2.distance = s.distance := by simp [spiTransfer_state]
    have h1 : (spiTransfer m s).1 = s.SPDR := rfl
    simp only [spiPolls, List.length_cons, List.replicate_succ]
    rw [h2, hd, h1, h]

/-- The bytes of consecutive transactions: the content of `SPDR` first, then
`high distance` for every later one. -/
theorem spiPolls_cons (m : Nat) (ms : List Nat) (s : State) :
    (spiPolls (m :: ms) s).1 = s.SPDR :: List.replicate ms.length (high s.distance) := by
  have h2 := spiPolls_steady ms (spiTransfer m s).2 (by simp [spiTransfer_state])
  have hd : (spiTransfer m s).2.distance = s.distance := by simp [spiTransfer_state]
  have h1 : (spiTransfer m s).1 = s.SPDR := rfl
  simp only [spiPolls]
  rw [h2, hd, h1]

/-- The byte of transaction number `i + 1` (counted from 0) is `high distance`. -/
theorem spiPolls_later (ms : List Nat) (s : State) (i : Nat) (hi : i + 1 < ms.length) :
    (spiPolls ms s).1[i + 1]? = some (high s.distance) := by
  cases ms with
  | nil => simp at hi
  | cons m ms =>
    rw [spiPolls_cons]
    have hi' : i < ms.length := by simpa using hi
    simp [hi']

/-- The resolve branch leaves the low byte of the new distance in `SPDR`. -/
theorem loopBody_resolve_SPDR (s : State) (h : s.edgeDetect = 3) :
    (main_loopBody s).SPDR = low (main_loopBody s).distance := by
  rw [loopBody_resolve s h]

/-- While `SPDR` and `distance` are both 0, every event other than a resolving
pass keeps them 0. -/
theorem step_keeps_zero (s : State) (e : Event) (hr : resolvesAt s e = false)
    (hS : s.SPDR = 0) (hD : s.distance = 0) :
    (step s e).SPDR = 0 ∧ (step s e).distance = 0 := by
  cases e with
  | capture icr => simp [step, captureEvent, ISR_TIMER1_CAPT_vect, hS, hD]
  | timeout => simp [step, ISR_TIMER1_COMPA_vect]
  | transfer m => simp [step, spiTransfer_state, hD, high_zero]
  | pass =>
    simp only [resolvesAt, Bool.and_eq_false_iff, beq_eq_false_iff_ne, ne_eq] at hr
    by_cases hc : s.conversionComplete = 0
    · have h3 : s.edgeDetect ≠ 3 := by
        rcases hr with hr | hr
        · exact absurd hc hr
        · exact hr
      by_cases h1 : s.edgeDetect = 1
      · simp [step, main_pollPass, main_loopCond, hc, loopBody_rising s h1, hS, hD]
      · simp [step, main_pollPass, main_loopCond, hc, loopBody_idle s h1 h3, hS, hD]
    · simp [step, main_pollPass, main_loopCond, hc, hS, hD]
  | trigger p1 p2 => simp [step, main_trigger, togglePIND, cli, sei, hS, hD]
  | arm => simp [step, main_arm, hS, hD]
  | teardown => simp [step, main_teardown, cli, sei, hS, hD]

/-- With `SPDR` and `distance` both 0 and no resolving pass, every byte the
master receives is 0. -/
theorem misoTrace_zero (evs : List Event) (s : State) (hn : noResolve evs s = true)
    (hS : s.SPDR = 0) (hD : s.distance = 0) :
    ∀ b ∈ misoTrace evs s, b = 0 := by
  induction evs generalizing s with
  | nil => intro b hb; simp [misoTrace] at hb
  | cons e evs ih =>
    simp only [noResolve, Bool.and_eq_true, Bool.not_eq_true'] at hn
    obtain ⟨hS', hD'⟩ := step_keeps_zero s e hn.1 hS hD
    have ih' := ih (step s e) hn.2 hS' hD'
    intro b hb
    cases e with
    | transfer m =>
      simp only [misoTrace, List.mem_cons] at hb
      rcases hb with hb | hb
      · rw [hb]; simpa [spiTransfer] using hS
      · exact ih' b hb
    | capture icr => exact ih' b (by simpa [misoTrace] using hb)
    | timeout => exact ih' b (by simpa [misoTrace] using hb)
    | pass => exact ih' b (by simpa [misoTrace] using hb)
    | trigger p1 p2 => exact ih' b (by simpa [misoTrace] using hb)
    | arm => exact ih' b (by simpa [misoTrace] using hb)
    | teardown => exact ih' b (by simpa [misoTrace] using hb)

/-- Every event keeps `SPDR` a byte of the current `distance`. -/
theorem step_servesCurrentDistance (s : State) (e : Event)
    (h : servesCurrentDistance s) : servesCurrentDistance (step s e) := by
  unfold servesCurrentDistance at h ⊢
  cases e with
  | capture icr => simpa [step, captureEvent, ISR_TIMER1_CAPT_vect] using h
  | timeout => left; simp [step, ISR_TIMER1_COMPA_vect, low_zero]
  | transfer m => right; simp [step, spiTransfer_state]
  | pass =>
    by_cases hc : s.conversionComplete = 0
    · by_cases h1 : s.edgeDetect = 1
      · simpa [step, main_pollPass, main_loopCond, hc, loopBody_rising s h1] using h
      · by_cases h3 : s.edgeDetect = 3
        · left
          simp only [step, main_pollPass, main_loopCond, hc, beq_self_eq_true, if_true]
          exact loopBody_resolve_SPDR s h3
        · simpa [step, main_pollPass, main_loopCond, hc, loopBody_idle s h1 h3] using h
    · simpa [step, main_pollPass, main_loopCond, hc] using h
  | trigger p1 p2 => simpa [step, main_trigger, togglePIND, cli, sei] using h
  | arm => simpa [step, main_arm] using h
  | teardown => simpa [step, main_teardown, cli, sei] using h

/-- The publisher relation holds after every sequence of events. -/
theorem run_servesCurrentDistance (evs : List Event) (s : State)
    (h : servesCurrentDistance s) : servesCurrentDistance (run evs s) := by
  induction evs generalizing s with
  | nil => simpa [run] using h
  | cons e evs ih =>
    have := ih (step s e) (step_servesCurrentDistance s e h)
    simpa [run] using this

/-- C4 fails as stated: continuing scenario 1 (distance 1400 published), three
polls, a second cycle publishing 800 and a fourth poll give the master the
bytes 120, 5, 5, 32; the consecutive bytes 5 and 32 are the high byte of 1400
and the low byte of 800, and neither published distance has both of them as
its bytes (1400 has bytes 5 and 120, 800 has bytes 3 and 32). -/
theorem pair_mixes_two_cycles :
    misoTrace pairAcrossCycles resolved1400 = [120, 5, 5, 32] ∧
    (run pairAcrossCycles resolved1400).distanceLog = [1400, 800] ∧
    high 1400 = 5 ∧ low 1400 = 120 ∧ high 800 = 3 ∧ low 800 = 32 := by
  decide

/-- C6: from every state, after the timeout handler has run the published
distance is 0 and each of the following byte transactions returns 0: this
holds for any number of consecutive transactions, and for the transfers of
any sequence of events in which no loop pass runs the resolve branch. -/
theorem timeout_then_polls_zero (s : State) (ms : List Nat) (evs : List Event) :
    (ISR_TIMER1_COMPA_vect s).distance = 0 ∧
    (spiPolls ms (ISR_TIMER1_COMPA_vect s)).1 = List.replicate ms.length 0 ∧
    (noResolve evs (ISR_TIMER1_COMPA_vect s) = true →
      ∀ b ∈ misoTrace evs (ISR_TIMER1_COMPA_vect s), b = 0) := by
  have hS : (ISR_TIMER1_COMPA_vect s).SPDR = 0 := rfl
  have hD : (ISR_TIMER1_COMPA_vect s).distance = 0 := rfl
  refine ⟨hD, ?_, ?_⟩
  · have := spiPolls_steady ms (ISR_TIMER1_COMPA_vect s) (by rw [hS, hD, high_zero])
    rw [this, hD, high_zero]
  · intro hn
    exact misoTrace_zero evs _ hn hS hD

/-- Witness for C6: a timeout from the armed state, then transfers
interleaved with a capture and the teardown. -/
theorem timeout_then_polls_zero_witness :
    noResolve [.transfer 7, .capture 5, .transfer 9, .teardown, .transfer 1]
      (ISR_TIMER1_COMPA_vect armedState) = true ∧
    ∀ b ∈ misoTrace [.transfer 7, .capture 5, .transfer 9, .teardown, .transfer 1]
      (ISR_TIMER1_COMPA_vect armedState), b = 0 :=
  ⟨by decide,
   (timeout_then_polls_zero armedState []
      [.transfer 7, .capture 5, .transfer 9, .teardown, .transfer 1]).2.2 (by decide)⟩

/-! ## Sequences of passes -/

theorem run_cons (e : Event) (evs : List Event) (s : State) :
    run (e :: evs) s = run evs (step s e) := rfl

theorem run_append (xs ys : List Event) (s : State) :
    run (xs ++ ys) s = run ys (run xs s) := by
  simp [run, List.foldl_append]

/-- A pass changes nothing when `conversionComplete` is not 0. -/
theorem pollPass_done (s : State) (h : s.conversionComplete ≠ 0) : main_pollPass s = s := by
  simp [main_pollPass, main_loopCond, h]

/-- A pass changes nothing when `edgeDetect` is neither 1 nor 3. -/
theorem pollPass_idle (s : State) (h1 : s.edgeDetect ≠ 1) (h3 : s.edgeDetect ≠ 3) :
    main_pollPass s = s := by
  unfold main_pollPass
  split
  · exact loopBody_idle s h1 h3
  · rfl

/-- Repeated passes from a state a single pass leaves unchanged. -/
theorem run_passes_fixed (n : Nat) (s : State) (h : main_pollPass s = s) :
    run (List.replicate n Event.pass) s = s := by
  induction n with
  | zero => rfl
  | succ n ih =>
    rw [List.replicate_succ, run_cons]
    simp only [step]
    rw [h, ih]

/-- One or more passes from `edgeDetect = 1` with the loop condition true: the
first runs the rising-edge branch, the others change nothing. -/
theorem run_passes_rising (n : Nat) (s : State) (hE : s.edgeDetect = 1)
    (hC : s.conversionComplete = 0) :
    run (List.replicate (n + 1) Event.pass) s = main_loopBody s := by
  rw [List.replicate_succ, run_cons]
  have hp : step s Event.pass = main_loopBody s := by
    simp [step, main_pollPass, main_loopCond, hC]
  rw [hp]
  apply run_passes_fixed
  apply pollPass_idle
  · rw [loopBody_rising s hE]; simp
  · rw [loopBody_rising s hE]; simp

/-- One or more passes from `edgeDetect = 3` with the loop condition true: the
first runs the resolve branch, the others find the condition false. -/
theorem run_passes_resolve (n : Nat) (s : State) (hE : s.edgeDetect = 3)
    (hC : s.conversionComplete = 0) :
    run (List.replicate (n + 1) Event.pass) s = main_loopBody s := by
  rw [List.replicate_succ, run_cons]
  have hp : step s Event.pass = main_loopBody s := by
    simp [step, main_pollPass, main_loopCond, hC]
  rw [hp]
  apply run_passes_fixed
  apply pollPass_done
  rw [loopBody_resolve s hE]; simp

/-- C7 fails as stated: from the armed state, where the capture interrupt is
enabled, two captures before the first pass leave `edgeDetect = 2`, the pass
that follows records no rising-edge timestamp, and the third capture resolves
the cycle against the stale timestamp 0; two captures while the loop awaits
the falling edge leave `edgeDetect = 4`, and the pass that follows does not
resolve the cycle. -/
theorem extra_captures_advance_phase :
    captureIntEnabled armedState = true ∧
    armedState.edgeDetect = 0 ∧ armedState.conversionComplete = 0 ∧
    (run [.capture 100, .capture 200] armedState).edgeDetect = 2 ∧
    (run [.capture 100, .capture 200, .pass] armedState).edgeDetect = 2 ∧
    (run [.capture 100, .capture 200, .pass] armedState).risingEdge = 0 ∧
    (run [.capture 100, .capture 200, .pass, .capture 1500, .pass] armedState).conversionComplete = 1 ∧
    (run [.capture 100, .capture 200, .pass, .capture 1500, .pass] armedState).distance = 1500 ∧
    (run [.capture 100, .pass, .capture 1500, .capture 1600, .pass] armedState).edgeDetect = 4 ∧
    (run [.capture 100, .pass, .capture 1500, .capture 1600, .pass] armedState).conversionComplete = 0 := by
  decide

/-- C7, amended: in every state a capture interrupt increments `edgeDetect`
by one modulo 256 (no capture is filtered).  From `edgeDetect = 0` and
`conversionComplete = 0`, when each of the two captures is followed by at
least one pass of the loop before the next capture, `edgeDetect` goes
0, 1, 2, 3, 0 in order, the rising-edge timestamp is recorded, and the cycle
resolves at the second capture with the wrapped difference of the two ticks. -/
theorem single_captures_advance_in_order (s : State) (r f n m : Nat)
    (hE : s.edgeDetect = 0) (hC : s.conversionComplete = 0) :
    (∀ (t : State) (icr : Nat), (captureEvent icr t).edgeDetect = (t.edgeDetect + 1) % 256) ∧
    (run [Event.capture r] s).edgeDetect = 1 ∧
    (run (Event.capture r :: List.replicate (n + 1) Event.pass) s).edgeDetect = 2 ∧
    (run (Event.capture r :: List.replicate (n + 1) Event.pass) s).risingEdge = r % 65536 ∧
    (run ((Event.capture r :: List.replicate (n + 1) Event.pass) ++ [Event.capture f]) s).edgeDetect = 3 ∧
    (run ((Event.capture r :: List.replicate (n + 1) Event.pass) ++
        (Event.capture f :: List.replicate (m + 1) Event.pass)) s).edgeDetect = 0 ∧
    (run ((Event.capture r :: List.replicate (n + 1) Event.pass) ++
        (Event.capture f :: List.replicate (m + 1) Event.pass)) s).conversionComplete = 1 ∧
    (run ((Event.capture r :: List.replicate (n + 1) Event.pass) ++
        (Event.capture f :: List.replicate (m + 1) Event.pass)) s).distance =
      (f % 65536 + 65536 - r % 65536) % 65536 := by
  have e1 : (captureEvent r s).edgeDetect = 1 := by
    simp [captureEvent, ISR_TIMER1_CAPT_vect, hE]
  have c1 : (captureEvent r s).conversionComplete = 0 := by
    simp [captureEvent, ISR_TIMER1_CAPT_vect, hC]
  have a2 : run (Event.capture r :: List.replicate (n + 1) Event.pass) s =
      main_loopBody (captureEvent r s) := by
    rw [run_cons]; exact run_passes_rising n _ e1 c1
  have b2 := loopBody_rising (captureEvent r s) e1
  have e3 : (captureEvent f (main_loopBody (captureEvent r s))).edgeDetect = 3 := by
    rw [b2]; simp [captureEvent, ISR_TIMER1_CAPT_vect]
  have c3 : (captureEvent f (main_loopBody (captureEvent r s))).conversionComplete = 0 := by
    rw [b2]; simp [captureEvent, ISR_TIMER1_CAPT_vect, hC]
  have a3 : run ((Event.capture r :: List.replicate (n + 1) Event.pass) ++ [Event.capture f]) s =
      captureEvent f (main_loopBody (captureEvent r s)) := by
    rw [run_append, a2]; rfl
  have a4 : run ((Event.capture r :: List.replicate (n + 1) Event.pass) ++
        (Event.capture f :: List.replicate (m + 1) Event.pass)) s =
      main_loopBody (captureEvent f (main_loopBody (captureEvent r s))) := by
    rw [run_append, a2, run_cons]; exact run_passes_resolve m _ e3 c3
  have b4 := loopBody_resolve _ e3
  refine ⟨?_, ?_, ?_, ?_, ?_, ?_, ?_, ?_⟩
  · intro t icr; simp [captureEvent, ISR_TIMER1_CAPT_vect]
  · exact e1
  · rw [a2, b2]
  · rw [a2, b2]; simp [captureEvent, ISR_TIMER1_CAPT_vect]
  · rw [a3]; exact e3
  · rw [a4, b4]
  · rw [a4, b4]
  · rw [a4, b4, b2]; simp [captureEvent, ISR_TIMER1_CAPT_vect]

/-- Witness for the amended C7 from the armed state, with ticks 100 and 1500,
one pass after the first capture and two after the second. -/
theorem single_captures_advance_in_order_witness :
    (armedState.edgeDetect = 0 ∧ armedState.conversionComplete = 0) ∧
    (run ((Event.capture 100 :: List.replicate (0 + 1) Event.pass) ++
        (Event.capture 1500 :: List.replicate (1 + 1) Event.pass)) armedState).distance =
      (1500 % 65536 + 65536 - 100 % 65536) % 65536 :=
  ⟨⟨by decide, by decide⟩,
   (single_captures_advance_in_order armedState 100 1500 0 1 (by decide) (by decide)).2.2.2.2.2.2.2⟩

/-- C8 fails as stated: scenario 1 ends Resolved (`conversionComplete = 1`,
`edgeDetect = 0`) with the timer running and the capture interrupt enabled; a
capture interrupt there changes `edgeDetect` to 1, and after teardown,
trigger and arming the next cycle begins with `edgeDetect = 1`. -/
theorem capture_after_resolve_counts :
    resolved1400.conversionComplete = 1 ∧ resolved1400.edgeDetect = 0 ∧
    timerRunning resolved1400 = true ∧ captureIntEnabled resolved1400 = true ∧
    (captureEvent 1600 resolved1400).edgeDetect = 1 ∧
    (captureEvent 1600 resolved1400).edgeDetect ≠ resolved1400.edgeDetect ∧
    (run [.capture 1600, .teardown, .trigger 0 0, .arm] resolved1400).edgeDetect = 1 := by
  decide

/-- C8, amended: in every state with `conversionComplete = 1` and
`edgeDetect = 0`, a capture interrupt leaves `distance` and
`conversionComplete` unchanged and sets `edgeDetect` to 1; teardown, trigger
pulse and arming leave `edgeDetect` alone, so the next cycle begins with
`edgeDetect = 1`. -/
theorem capture_in_resolved_state (s : State) (icr p1 p2 : Nat)
    (hC : s.conversionComplete = 1) (hE : s.edgeDetect = 0) :
    (captureEvent icr s).distance = s.distance ∧
    (captureEvent icr s).conversionComplete = 1 ∧
    (captureEvent icr s).edgeDetect = 1 ∧
    (main_arm (main_trigger p1 p2 (main_teardown (captureEvent icr s)))).edgeDetect = 1 := by
  simp [captureEvent, ISR_TIMER1_CAPT_vect, main_arm, main_trigger, main_teardown,
    togglePIND, cli, sei, hC, hE]

/-- Witness for the amended C8 at the end of scenario 1. -/
theorem capture_in_resolved_state_witness :
    (resolved1400.conversionComplete = 1 ∧ resolved1400.edgeDetect = 0) ∧
    ((captureEvent 1600 resolved1400).distance = resolved1400.distance ∧
      (captureEvent 1600 resolved1400).conversionComplete = 1 ∧
      (captureEvent 1600 resolved1400).edgeDetect = 1 ∧
      (main_arm (main_trigger 0 0 (main_teardown (captureEvent 1600 resolved1400)))).edgeDetect = 1) :=
  ⟨⟨by decide, by decide⟩,
   capture_in_resolved_state resolved1400 1600 0 0 (by decide) (by decide)⟩

/-- C9 fails as stated: after scenario 1 and one further capture the
busy-wait has exited (`conversionComplete = 1`) with `edgeDetect = 1`, and the
teardown leaves `edgeDetect = 1`, not 0. -/
theorem teardown_keeps_edgeDetect :
    resolvedThenCapture.conversionComplete = 1 ∧
    main_loopCond resolvedThenCapture = false ∧
    resolvedThenCapture.edgeDetect = 1 ∧
    (main_teardown resolvedThenCapture).edgeDetect = 1 ∧
    (main_teardown resolvedThenCapture).edgeDetect ≠ 0 := by
  decide

/-- C9, amended: from every state the teardown leaves
`conversionComplete = 0`, `TCCR1B = 0` (timer stopped), `TCNT1 = 0` and
`TIMSK1 = 0` (capture and compare interrupts disabled), and leaves
`edgeDetect` as it was, so `edgeDetect` is 0 afterwards exactly when it was 0
when the busy-wait exited. -/
theorem teardown_effect (s : State) :
    (main_teardown s).conversionComplete = 0 ∧
    (main_teardown s).TCCR1B = 0 ∧
    (main_teardown s).TCNT1 = 0 ∧
    (main_teardown s).TIMSK1 = 0 ∧
    timerRunning (main_teardown s) = false ∧
    captureIntEnabled (main_teardown s) = false ∧
    timeoutIntEnabled (main_teardown s) = false ∧
    (main_teardown s).edgeDetect = s.edgeDetect ∧
    ((main_teardown s).edgeDetect = 0 ↔ s.edgeDetect = 0) := by
  simp [main_teardown, cli, sei, timerRunning, captureIntEnabled, timeoutIntEnabled]

/-! ## Writes to `distance` within a cycle -/

/-- C10 fails as stated: at the end of scenario 1 the resolve branch has
written 1400 and raised `conversionComplete`, the timer is still running and
the timeout interrupt is enabled; the timeout handler delivered there writes
`distance = 0`, so that over the cycle `distance` is written twice. -/
theorem late_timeout_writes_again :
    resolved1400.distanceLog = [1400] ∧ resolved1400.conversionComplete = 1 ∧
    timerRunning resolved1400 = true ∧ timeoutIntEnabled resolved1400 = true ∧
    (ISR_TIMER1_COMPA_vect resolved1400).distance = 0 ∧
    (ISR_TIMER1_COMPA_vect resolved1400).distance ≠ resolved1400.distance ∧
    (run [.capture 100, .pass, .capture 1500, .pass, .timeout, .teardown] armedState).distanceLog =
      [1400, 0] := by
  decide

/-! ## What writes `distance` -/

/-- An event that does not complete a cycle leaves `distance` as it was. -/
theorem step_distance_of_not_completes (s : State) (e : Event)
    (h : completesAt s e = false) : (step s e).distance = s.distance := by
  cases e with
  | capture icr => simp [step, captureEvent, ISR_TIMER1_CAPT_vect]
  | timeout => simp [completesAt] at h
  | transfer m => simp [step, spiTransfer_state]
  | pass =>
    simp only [completesAt, resolvesAt, Bool.and_eq_false_iff, beq_eq_false_iff_ne, ne_eq] at h
    by_cases hc : s.conversionComplete = 0
    · have h3 : s.edgeDetect ≠ 3 := by
        rcases h with h | h
        · exact absurd hc h
        · exact h
      by_cases h1 : s.edgeDetect = 1
      · simp [step, main_pollPass, main_loopCond, hc, loopBody_rising s h1]
      · simp [step, main_pollPass, main_loopCond, hc, loopBody_idle s h1 h3]
    · simp [step, main_pollPass, main_loopCond, hc]
  | trigger p1 p2 => simp [step, main_trigger, togglePIND, cli, sei]
  | arm => simp [step, main_arm]
  | teardown => simp [step, main_teardown, cli, sei]

/-- Along a sequence of events none of which completes a cycle, `distance`
keeps its value. -/
theorem run_distance_of_noCompletion (evs : List Event) (s : State)
    (h : noCompletion evs s = true) : (run evs s).distance = s.distance := by
  induction evs generalizing s with
  | nil => rfl
  | cons e evs ih =>
    simp only [noCompletion, Bool.and_eq_true, Bool.not_eq_true'] at h
    rw [run_cons, ih (step s e) h.2, step_distance_of_not_completes s e h.1]

/-- The loop body leaves `distance` alone unless it runs the resolve branch. -/
theorem loopBody_distance_of_ne_three (s : State) (h3 : s.edgeDetect ≠ 3) :
    (main_loopBody s).distance = s.distance := by
  by_cases h1 : s.edgeDetect = 1
  · rw [loopBody_rising s h1]
  · rw [loopBody_idle s h1 h3]

/-- C11: in every state the capture handler, the byte-request handler (also
as part of a whole byte transaction), `time_stamp` with any argument, the
trigger pulse, arming and teardown leave `distance` unchanged, and so does
the loop body when it does not run the resolve branch (in particular its
rising-edge branch, `edgeDetect = 1`); hence along every sequence of events
without a timeout and without a resolving pass `distance` keeps its value. -/
theorem distance_changed_only_by_completion (s : State) (icr mosi c p1 p2 : Nat)
    (evs : List Event) :
    (ISR_TIMER1_CAPT_vect s).distance = s.distance ∧
    (captureEvent icr s).distance = s.distance ∧
    (ISR_SPI_STC_vect s).distance = s.distance ∧
    (spiTransfer mosi s).2.distance = s.distance ∧
    (time_stamp c s).2.distance = s.distance ∧
    (main_trigger p1 p2 s).distance = s.distance ∧
    (main_arm s).distance = s.distance ∧
    (main_teardown s).distance = s.distance ∧
    (s.edgeDetect = 1 → (main_loopBody s).distance = s.distance) ∧
    (s.edgeDetect ≠ 3 → (main_loopBody s).distance = s.distance) ∧
    (noCompletion evs s = true → (run evs s).distance = s.distance) := by
  refine ⟨rfl, rfl, rfl, rfl, ?_, rfl, rfl, rfl, ?_, ?_, ?_⟩
  · unfold time_stamp
    by_cases h0 : c = 0
    · simp [h0]
    · by_cases h1 : c = 1
      · simp [h1]
      · simp [h0, h1]
  · intro h1
    exact loopBody_distance_of_ne_three s (by rw [h1]; decide)
  · exact loopBody_distance_of_ne_three s
  · exact run_distance_of_noCompletion evs s

/-- Witness for C11: the distance 1400 published by scenario 1 persists across
teardown, trigger pulse, arming, a capture, the rising-edge pass and a byte
transaction of the next cycle. -/
theorem distance_changed_only_by_completion_witness :
    noCompletion [.teardown, .trigger 0 0, .arm, .capture 200, .pass, .transfer 0]
      resolved1400 = true ∧
    (run [.teardown, .trigger 0 0, .arm, .capture 200, .pass, .transfer 0]
      resolved1400).distance = resolved1400.distance ∧
    resolved1400.distance = 1400 :=
  ⟨by decide,
   (distance_changed_only_by_completion resolved1400 0 0 0 0 0
      [.teardown, .trigger 0 0, .arm, .capture 200, .pass, .transfer 0]).2.2.2.2.2.2.2.2.2.2
      (by decide),
   by decide⟩

/-! ## The trigger pulse -/

/-- A toggling write flips the trigger bit of `PORTD`, whatever was read from
`PIND`. -/
theorem togglePIND_trigger_bit (pins : Nat) (s : State) :
    (togglePIND pins s).PORTD.testBit TRIGGER = !s.PORTD.testBit TRIGGER := by
  have hb : ((pins ||| BV TRIGGER) % 256).testBit TRIGGER = true := by
    have h256 : (256 : Nat) = 2 ^ 8 := by norm_num
    rw [h256, Nat.testBit_mod_two_pow, Nat.testBit_or]
    simp [TRIGGER, PD0, BV]
  simp only [togglePIND, Nat.testBit_xor, hb]
  cases s.PORTD.testBit TRIGGER <;> rfl

/-- C12: when the trigger bit PD0 of `PORTD` is low at the start of the pulse
sequence (lines 57-64), the first toggling write sets it, the second clears
it again, so the sequence ends with PD0 low; the global interrupt flag is
clear from the `cli()` through both writes and is set by the final `sei()`.
Two toggles restore the bit whatever its initial value. -/
theorem trigger_pulse_high_then_low (s : State) (p1 p2 : Nat)
    (hlow : s.PORTD.testBit TRIGGER = false) :
    main_trigger p1 p2 s = sei (togglePIND p2 (togglePIND p1 (cli s))) ∧
    (cli s).SREG_I = false ∧
    (togglePIND p1 (cli s)).PORTD.testBit TRIGGER = true ∧
    (togglePIND p1 (cli s)).SREG_I = false ∧
    (togglePIND p2 (togglePIND p1 (cli s))).PORTD.testBit TRIGGER = false ∧
    (togglePIND p2 (togglePIND p1 (cli s))).SREG_I = false ∧
    (main_trigger p1 p2 s).PORTD.testBit TRIGGER = false ∧
    (main_trigger p1 p2 s).SREG_I = true ∧
    (∀ t : State, (main_trigger p1 p2 t).PORTD.testBit TRIGGER = t.PORTD.testBit TRIGGER) := by
  have hc : (cli s).PORTD = s.PORTD := rfl
  have h1 : (togglePIND p1 (cli s)).PORTD.testBit TRIGGER = true := by
    rw [togglePIND_trigger_bit, hc, hlow]; rfl
  have h2 : (togglePIND p2 (togglePIND p1 (cli s))).PORTD.testBit TRIGGER = false := by
    rw [togglePIND_trigger_bit, h1]; rfl
  refine ⟨rfl, rfl, h1, rfl, h2, rfl, h2, rfl, ?_⟩
  intro t
  have e : (main_trigger p1 p2 t).PORTD = (togglePIND p2 (togglePIND p1 (cli t))).PORTD := rfl
  have ec : (cli t).PORTD = t.PORTD := rfl
  rw [e, togglePIND_trigger_bit, togglePIND_trigger_bit, ec]
  cases t.PORTD.testBit TRIGGER <;> rfl

/-- Witness for C12 at the state after initialisation, where `PORTD` is 0. -/
theorem trigger_pulse_high_then_low_witness :
    (main_init resetState).PORTD.testBit TRIGGER = false ∧
    (togglePIND 0 (cli (main_init resetState))).PORTD.testBit TRIGGER = true ∧
    (main_trigger 0 0 (main_init resetState)).PORTD.testBit TRIGGER = false ∧
    (main_trigger 0 0 (main_init resetState)).SREG_I = true :=
  ⟨by decide,
   (trigger_pulse_high_then_low (main_init resetState) 0 0 (by decide)).2.2.1,
   (trigger_pulse_high_then_low (main_init resetState) 0 0 (by decide)).2.2.2.2.2.2.1,
   (trigger_pulse_high_then_low (main_init resetState) 0 0 (by decide)).2.2.2.2.2.2.2.1⟩

/-! ## `time_stamp` -/

/-- Clearing bit `ICES1` of an 8-bit register value: bit `ICES1` becomes 0 and
every other bit of the low byte keeps its value. -/
theorem clear_ICES1_bits (x i : Nat) (hi : i < 8) :
    (x &&& (255 ^^^ BV ICES1)).testBit i = (decide (i ≠ ICES1) && x.testBit i) := by
  have hm : (255 ^^^ BV ICES1) = 191 := by decide
  rw [hm, Nat.testBit_and]
  have h191 : Nat.testBit 191 i = decide (i ≠ ICES1) := by
    unfold ICES1
    interval_cases i <;> decide
  rw [h191, Bool.and_comm]

/-- After `n` capture interrupts in a row `edgeDetect` has advanced by `n`
modulo 256. -/
theorem run_captures_edgeDetect (n icr : Nat) (s : State) (hs : s.edgeDetect < 256) :
    (run (List.replicate n (Event.capture icr)) s).edgeDetect = (s.edgeDetect + n) % 256 := by
  induction n generalizing s with
  | zero =>
    show s.edgeDetect = (s.edgeDetect + 0) % 256
    omega
  | succ n ih =>
    have hlt : (step s (Event.capture icr)).edgeDetect < 256 := by
      simp only [step, captureEvent, ISR_TIMER1_CAPT_vect]
      omega
    rw [List.replicate_succ, run_cons, ih _ hlt]
    simp only [step, captureEvent, ISR_TIMER1_CAPT_vect]
    omega

/-- C13 fails as stated at the top of the `uint8_t` range: after 255 capture
interrupts `edgeDetect` is 255, and `time_stamp(0)` leaves it 0, not 256. -/
theorem time_stamp_wraps_at_255 :
    edgeDetect255.edgeDetect = 255 ∧
    (time_stamp 0 edgeDetect255).2.edgeDetect = 0 ∧
    (time_stamp 0 edgeDetect255).2.edgeDetect ≠ edgeDetect255.edgeDetect + 1 := by
  have h0 : armedState.edgeDetect = 0 := by decide
  have h : edgeDetect255.edgeDetect = 255 := by
    unfold edgeDetect255
    rw [run_captures_edgeDetect 255 0 armedState (by rw [h0]; decide), h0]
  have ht : (time_stamp 0 edgeDetect255).2.edgeDetect = (edgeDetect255.edgeDetect + 1) % 256 := rfl
  refine ⟨h, ?_, ?_⟩
  · rw [ht, h]
  · rw [ht, h]; decide

/-- C13, amended: in every state `time_stamp(0)` replaces `edgeDetect` by
`edgeDetect + 1` modulo 256 (exactly one more whenever `edgeDetect < 255`),
clears bit `ICES1` of `TCCR1B` and leaves every other bit of that register,
among them `WGM12` and the clock-select bits 2..0, as it was, changes nothing
else, and returns `ICR1`; `time_stamp(1)` sets `edgeDetect` to 0, changes
nothing else (so `TCCR1B` is unchanged) and returns `ICR1`; neither call
changes `distance` or `conversionComplete`. -/
theorem time_stamp_effect (s : State) :
    (time_stamp 0 s).2 =
      { s with edgeDetect := (s.edgeDetect + 1) % 256,
               TCCR1B := s.TCCR1B &&& (255 ^^^ BV ICES1) } ∧
    (time_stamp 0 s).2.edgeDetect = (s.edgeDetect + 1) % 256 ∧
    (s.edgeDetect < 255 → (time_stamp 0 s).2.edgeDetect = s.edgeDetect + 1) ∧
    (time_stamp 0 s).2.TCCR1B.testBit ICES1 = false ∧
    (∀ i, i < 8 → i ≠ ICES1 →
      (time_stamp 0 s).2.TCCR1B.testBit i = s.TCCR1B.testBit i) ∧
    (time_stamp 0 s).2.TCCR1B.testBit WGM12 = s.TCCR1B.testBit WGM12 ∧
    (time_stamp 0 s).2.TCCR1B % 8 = s.TCCR1B % 8 ∧
    (time_stamp 0 s).1 = s.ICR1 ∧
    (time_stamp 0 s).2.distance = s.distance ∧
    (time_stamp 0 s).2.conversionComplete = s.conversionComplete ∧
    (time_stamp 1 s).2 = { s with edgeDetect := 0 } ∧
    (time_stamp 1 s).2.edgeDetect = 0 ∧
    (time_stamp 1 s).2.TCCR1B = s.TCCR1B ∧
    (time_stamp 1 s).1 = s.ICR1 ∧
    (time_stamp 1 s).2.distance = s.distance ∧
    (time_stamp 1 s).2.conversionComplete = s.conversionComplete := by
  have hT : (time_stamp 0 s).2.TCCR1B = s.TCCR1B &&& (255 ^^^ BV ICES1) := rfl
  refine ⟨rfl, rfl, ?_, ?_, ?_, ?_, ?_, rfl, rfl, rfl, rfl, rfl, rfl, rfl, rfl, rfl⟩
  · intro h
    show (s.edgeDetect + 1) % 256 = s.edgeDetect + 1
    exact Nat.mod_eq_of_lt (by omega)
  · rw [hT, clear_ICES1_bits _ _ (by decide)]; simp
  · intro i hi hne
    rw [hT, clear_ICES1_bits _ _ hi]; simp [hne]
  · rw [hT, clear_ICES1_bits _ _ (by decide)]; simp [WGM12, ICES1]
  · rw [hT]
    have hm : (255 ^^^ BV ICES1) = 191 := by decide
    rw [hm]
    apply Nat.eq_of_testBit_eq
    intro i
    have h8 : (8 : Nat) = 2 ^ 3 := by norm_num
    rw [h8, Nat.testBit_mod_two_pow, Nat.testBit_mod_two_pow, Nat.testBit_and]
    by_cases hi : i < 3
    · have : Nat.testBit 191 i = true := by interval_cases i <;> decide
      simp [hi, this]
    · simp [hi]

/-- Witness for the amended C13 at the armed state, where `edgeDetect` is 0
and `TCCR1B` holds `ICES1`, `WGM12` and `CS11`. -/
theorem time_stamp_effect_witness :
    armedState.edgeDetect < 255 ∧
    (time_stamp 0 armedState).2.edgeDetect = armedState.edgeDetect + 1 ∧
    (time_stamp 0 armedState).2.TCCR1B = BV WGM12 ||| BV CS11 :=
  ⟨by decide, (time_stamp_effect armedState).2.2.1 (by decide), by decide⟩

/-! ## The timeout constant -/

/-- C14, evaluated on the code: initialisation loads `OCR1A` with `TIMEOUT`,
which is 40000, while the formula of the comment on line 25 at the documented
clock of 16 MHz gives exactly 37000. -/
theorem timeout_constant_differs_from_formula :
    (main_init resetState).OCR1A = TIMEOUT ∧
    TIMEOUT = 40000 ∧
    timeoutFormula documentedClock = 37000 ∧
    (TIMEOUT : ℚ) ≠ timeoutFormula documentedClock := by
  have hf : timeoutFormula documentedClock = 37000 := by
    norm_num [timeoutFormula, documentedClock]
  refine ⟨by decide, rfl, hf, ?_⟩
  rw [hf]
  norm_num [TIMEOUT]

/-! ## Bytes on the bus after a resolve -/

/-- An event that is neither a transfer nor a completion leaves `SPDR` as it
was. -/
theorem step_SPDR_of_not_completes (s : State) (e : Event)
    (h : completesAt s e = false) (ht : ∀ m, e ≠ Event.transfer m) :
    (step s e).SPDR = s.SPDR := by
  cases e with
  | capture icr => simp [step, captureEvent, ISR_TIMER1_CAPT_vect]
  | timeout => simp [completesAt] at h
  | transfer m => exact absurd rfl (ht m)
  | pass =>
    simp only [completesAt, resolvesAt, Bool.and_eq_false_iff, beq_eq_false_iff_ne, ne_eq] at h
    by_cases hc : s.conversionComplete = 0
    · have h3 : s.edgeDetect ≠ 3 := by
        rcases h with h | h
        · exact absurd hc h
        · exact h
      by_cases h1 : s.edgeDetect = 1
      · simp [step, main_pollPass, main_loopCond, hc, loopBody_rising s h1]
      · simp [step, main_pollPass, main_loopCond, hc, loopBody_idle s h1 h3]
    · simp [step, main_pollPass, main_loopCond, hc]
  | trigger p1 p2 => simp [step, main_trigger, togglePIND, cli, sei]
  | arm => simp [step, main_arm]
  | teardown => simp [step, main_teardown, cli, sei]

/-- Once `SPDR` holds `high distance`, every transfer of a sequence without
completion returns that byte. -/
theorem misoTrace_steady (evs : List Event) (u : State)
    (hn : noCompletion evs u = true) (hu : u.SPDR = high u.distance) :
    misoTrace evs u = List.replicate (countTransfers evs) (high u.distance) := by
  induction evs generalizing u with
  | nil => rfl
  | cons e evs ih =>
    simp only [noCompletion, Bool.and_eq_true, Bool.not_eq_true'] at hn
    have hd := step_distance_of_not_completes u e hn.1
    cases e with
    | transfer m =>
      have hs : (step u (Event.transfer m)).SPDR = high (step u (Event.transfer m)).distance := by
        simp [step, spiTransfer_state]
      have h1 : (spiTransfer m u).1 = u.SPDR := rfl
      simp only [misoTrace, countTransfers, List.replicate_succ]
      rw [ih _ hn.2 hs, hd, h1, hu]
    | capture icr =>
      have hs := step_SPDR_of_not_completes u (Event.capture icr) hn.1 (by intro m; simp)
      have := ih _ hn.2 (by rw [hs, hd]; exact hu)
      simpa [misoTrace, countTransfers, hd] using this
    | timeout => simp [completesAt] at hn
    | pass =>
      have hs := step_SPDR_of_not_completes u Event.pass hn.1 (by intro m; simp)
      have := ih _ hn.2 (by rw [hs, hd]; exact hu)
      simpa [misoTrace, countTransfers, hd] using this
    | trigger p1 p2 =>
      have hs := step_SPDR_of_not_completes u (Event.trigger p1 p2) hn.1 (by intro m; simp)
      have := ih _ hn.2 (by rw [hs, hd]; exact hu)
      simpa [misoTrace, countTransfers, hd] using this
    | arm =>
      have hs := step_SPDR_of_not_completes u Event.arm hn.1 (by intro m; simp)
      have := ih _ hn.2 (by rw [hs, hd]; exact hu)
      simpa [misoTrace, countTransfers, hd] using this
    | teardown =>
      have hs := step_SPDR_of_not_completes u Event.teardown hn.1 (by intro m; simp)
      have := ih _ hn.2 (by rw [hs, hd]; exact hu)
      simpa [misoTrace, countTransfers, hd] using this

/-- Along a sequence without completion the first transfer returns the
content of `SPDR` and every later one returns `high distance`. -/
theorem misoTrace_first_then_high (evs : List Event) (u : State)
    (hn : noCompletion evs u = true) :
    misoTrace evs u = firstThenLater u.SPDR (high u.distance) (countTransfers evs) := by
  induction evs generalizing u with
  | nil => rfl
  | cons e evs ih =>
    simp only [noCompletion, Bool.and_eq_true, Bool.not_eq_true'] at hn
    have hd := step_distance_of_not_completes u e hn.1
    cases e with
    | transfer m =>
      have hs : (step u (Event.transfer m)).SPDR = high (step u (Event.transfer m)).distance := by
        simp [step, spiTransfer_state]
      have h1 : (spiTransfer m u).1 = u.SPDR := rfl
      simp only [misoTrace, countTransfers, firstThenLater]
      rw [misoTrace_steady evs _ hn.2 hs, hd, h1]
    | capture icr =>
      have hs := step_SPDR_of_not_completes u (Event.capture icr) hn.1 (by intro m; simp)
      have := ih _ hn.2
      simpa [misoTrace, countTransfers, hd, hs] using this
    | timeout => simp [completesAt] at hn
    | pass =>
      have hs := step_SPDR_of_not_completes u Event.pass hn.1 (by intro m; simp)
      have := ih _ hn.2
      simpa [misoTrace, countTransfers, hd, hs] using this
    | trigger p1 p2 =>
      have hs := step_SPDR_of_not_completes u (Event.trigger p1 p2) hn.1 (by intro m; simp)
      have := ih _ hn.2
      simpa [misoTrace, countTransfers, hd, hs] using this
    | arm =>
      have hs := step_SPDR_of_not_completes u Event.arm hn.1 (by intro m; simp)
      have := ih _ hn.2
      simpa [misoTrace, countTransfers, hd, hs] using this
    | teardown =>
      have hs := step_SPDR_of_not_completes u Event.teardown hn.1 (by intro m; simp)
      have := ih _ hn.2
      simpa [misoTrace, countTransfers, hd, hs] using this

/-- C15: after the resolve branch (a loop body run with `edgeDetect = 3`) has
published a distance `d`, and before any further resolve or timeout, the first
byte transaction returns the pre-loaded `low d` and every later transaction
returns `high d`; this holds for consecutive transactions and for the
transactions of any sequence of events without completion, and after every
transaction the handler has left `high d` in `SPDR`. -/
theorem resolve_serves_low_once_then_high (s : State) (m : Nat) (ms : List Nat)
    (evs : List Event) (h3 : s.edgeDetect = 3) :
    (spiPolls (m :: ms) (main_loopBody s)).1 =
      low (main_loopBody s).distance ::
        List.replicate ms.length (high (main_loopBody s).distance) ∧
    (∀ i, i + 1 < (m :: ms).length →
      (spiPolls (m :: ms) (main_loopBody s)).1[i + 1]? =
        some (high (main_loopBody s).distance)) ∧
    (∀ t : State, (spiTransfer m t).2.SPDR = high t.distance) ∧
    (noCompletion evs (main_loopBody s) = true →
      misoTrace evs (main_loopBody s) =
        firstThenLater (low (main_loopBody s).distance) (high (main_loopBody s).distance)
          (countTransfers evs)) := by
  refine ⟨?_, ?_, ?_, ?_⟩
  · rw [spiPolls_cons, loopBody_resolve_SPDR s h3]
  · intro i hi
    exact spiPolls_later (m :: ms) _ i hi
  · intro t; simp [spiTransfer_state]
  · intro hn
    rw [misoTrace_first_then_high evs _ hn, loopBody_resolve_SPDR s h3]

/-- Witness for C15 at scenario 1: the resolve publishes 1400, and four
transactions interleaved with the teardown and a capture return 120, 5, 5, 5. -/
theorem resolve_serves_low_once_then_high_witness :
    (run [.capture 100, .pass, .capture 1500] armedState).edgeDetect = 3 ∧
    (spiPolls [0, 0, 0] (main_loopBody (run [.capture 100, .pass, .capture 1500] armedState))).1 =
      low (main_loopBody (run [.capture 100, .pass, .capture 1500] armedState)).distance ::
        List.replicate [0, 0].length
          (high (main_loopBody (run [.capture 100, .pass, .capture 1500] armedState)).distance) ∧
    misoTrace [.transfer 0, .teardown, .transfer 0, .capture 9, .transfer 0, .transfer 0]
        (main_loopBody (run [.capture 100, .pass, .capture 1500] armedState)) =
      [120, 5, 5, 5] :=
  ⟨by decide,
   (resolve_serves_low_once_then_high (run [.capture 100, .pass, .capture 1500] armedState)
      0 [0, 0] [] (by decide)).1,
   by decide⟩

/-! ## The byte split -/

/-- C16: for every 16-bit value `x`, `high x` and `low x` are bytes and
`high x * 256 + low x = x`; two 16-bit values with the same high byte and the
same low byte are equal. -/
theorem byte_split_reassembles (x y : Nat) (hx : x < 65536) (hy : y < 65536) :
    low x < 256 ∧ high x < 256 ∧ high x * 256 + low x = x ∧
    (high x = high y → low x = low y → x = y) := by
  rw [low_eq_mod, high_eq_div_mod, low_eq_mod, high_eq_div_mod]
  refine ⟨by omega, by omega, by omega, ?_⟩
  intro h1 h2
  omega

/-- Witness for C16 at 1400 and 800. -/
theorem byte_split_reassembles_witness :
    (1400 < 65536 ∧ 800 < 65536) ∧
    (low 1400 < 256 ∧ high 1400 < 256 ∧ high 1400 * 256 + low 1400 = 1400 ∧
      (high 1400 = high 800 → low 1400 = low 800 → 1400 = 800)) :=
  ⟨⟨by decide, by decide⟩, byte_split_reassembles 1400 800 (by decide) (by decide)⟩

/-! ## The resolve branch with a falling tick below the rising tick -/

/-- C17: when the resolve branch runs (`edgeDetect = 3`) with the captured
falling tick `ICR1` below the stored 16-bit rising tick, it stores
`distance = (falling - rising) mod 2^16`, which is `falling - rising + 65536`,
a non-zero 16-bit value, and raises `conversionComplete`. -/
theorem resolve_wraps_below_rising (s : State) (h3 : s.edgeDetect = 3)
    (hr : s.risingEdge < 65536) (hlt : s.ICR1 < s.risingEdge) :
    (main_loopBody s).fallingEdge = s.ICR1 ∧
    (main_loopBody s).risingEdge = s.risingEdge ∧
    ((main_loopBody s).distance : Int) = ((s.ICR1 : Int) - (s.risingEdge : Int)) % 65536 ∧
    ((main_loopBody s).distance : Int) = (s.ICR1 : Int) - (s.risingEdge : Int) + 65536 ∧
    (main_loopBody s).distance ≠ 0 ∧
    (main_loopBody s).distance < 65536 ∧
    (main_loopBody s).conversionComplete = 1 := by
  have hd : (main_loopBody s).distance = (s.ICR1 + 65536 - s.risingEdge) % 65536 := by
    rw [loopBody_resolve s h3]
  have hv : (s.ICR1 + 65536 - s.risingEdge) % 65536 = s.ICR1 + 65536 - s.risingEdge :=
    Nat.mod_eq_of_lt (by omega)
  refine ⟨?_, ?_, ?_, ?_, ?_, ?_, ?_⟩
  · rw [loopBody_resolve s h3]
  · rw [loopBody_resolve s h3]
  · rw [hd, hv]; omega
  · rw [hd, hv]; omega
  · rw [hd, hv]; omega
  · rw [hd, hv]; omega
  · rw [loopBody_resolve s h3]

/-- Witness for C17: with the rising tick 100 kept from scenario 1 and a
falling tick 50, the resolve branch stores 65486. -/
theorem resolve_wraps_below_rising_witness :
    (staleRisingEdge.edgeDetect = 3 ∧ staleRisingEdge.risingEdge < 65536 ∧
      staleRisingEdge.ICR1 < staleRisingEdge.risingEdge) ∧
    ((main_loopBody staleRisingEdge).distance : Int) =
      (staleRisingEdge.ICR1 : Int) - (staleRisingEdge.risingEdge : Int) + 65536 ∧
    (main_loopBody staleRisingEdge).distance = 65486 :=
  ⟨⟨by decide, by decide, by decide⟩,
   (resolve_wraps_below_rising staleRisingEdge (by decide) (by decide) (by decide)).2.2.2.1,
   by decide⟩

/-! ## Passes that change nothing -/

/-- The busy-wait with no interrupt never returns from a state in which the
loop condition holds and a pass changes nothing. -/
theorem busyWait_none_of_idle (fuel : Nat) (s : State) (hC : s.conversionComplete = 0)
    (hb : main_loopBody s = s) : main_busyWait fuel s = none := by
  induction fuel with
  | zero => rfl
  | succ n ih => simp [main_busyWait, main_loopCond, hC, hb, ih]

/-- C18: in every state whose `edgeDetect` is neither 1 nor 3, one run of the
loop body, and one pass of the loop, change nothing at all: `edgeDetect`,
`risingEdge`, `distance`, `conversionComplete` and `SPDR` keep their values.
Any number of passes leaves the state as it is, and while
`conversionComplete = 0` the loop on its own never exits; a capture
interrupt changes `edgeDetect` and the timeout handler raises
`conversionComplete`. -/
theorem loop_pass_changes_nothing (s : State) (n icr : Nat)
    (h1 : s.edgeDetect ≠ 1) (h3 : s.edgeDetect ≠ 3) :
    main_loopBody s = s ∧
    main_pollPass s = s ∧
    (main_loopBody s).edgeDetect = s.edgeDetect ∧
    (main_loopBody s).risingEdge = s.risingEdge ∧
    (main_loopBody s).distance = s.distance ∧
    (main_loopBody s).conversionComplete = s.conversionComplete ∧
    (main_loopBody s).SPDR = s.SPDR ∧
    run (List.replicate n Event.pass) s = s ∧
    (s.conversionComplete = 0 → main_busyWait n s = none) ∧
    (s.edgeDetect < 256 → (captureEvent icr s).edgeDetect ≠ s.edgeDetect) ∧
    (ISR_TIMER1_COMPA_vect s).conversionComplete = 1 := by
  have hb := loopBody_idle s h1 h3
  have hp := pollPass_idle s h1 h3
  refine ⟨hb, hp, ?_, ?_, ?_, ?_, ?_, run_passes_fixed n s hp, ?_, ?_, rfl⟩
  · rw [hb]
  · rw [hb]
  · rw [hb]
  · rw [hb]
  · rw [hb]
  · intro hC
    exact busyWait_none_of_idle n s hC hb
  · intro hlt
    simp only [captureEvent, ISR_TIMER1_CAPT_vect]
    omega

/-- Witness for C18 at the armed state, where `edgeDetect` is 0 and
`conversionComplete` is 0. -/
theorem loop_pass_changes_nothing_witness :
    (armedState.edgeDetect ≠ 1 ∧ armedState.edgeDetect ≠ 3) ∧
    main_loopBody armedState = armedState ∧
    main_pollPass armedState = armedState ∧
    main_busyWait 5 armedState = none :=
  ⟨⟨by decide, by decide⟩,
   (loop_pass_changes_nothing armedState 5 0 (by decide) (by decide)).1,
   (loop_pass_changes_nothing armedState 5 0 (by decide) (by decide)).2.1,
   (loop_pass_changes_nothing armedState 5 0 (by decide) (by decide)).2.2.2.2.2.2.2.2.1
     (by decide)⟩

/-! ## The statement-grain steps against the blocks of `main` -/

/-- The loop body is its two tests followed by their branches. -/
theorem loopBody_eq_branches (s : State) :
    main_loopBody s =
      (fun s1 : State => if s1.edgeDetect = 3 then main_resolveBranch s1 else s1)
        (if s.edgeDetect = 1 then main_risingBranch s else s) := rfl

/-- Arming is lines 68, 70 and 72 in order. -/
theorem arm_eq_steps (s : State) : main_arm s = main_arm72 (main_arm70 (main_arm68 s)) := rfl

/-- The teardown is lines 95, 96, 97-99 and 100 in order. -/
theorem teardown_eq_steps (s : State) :
    main_teardown s = main_td100 (main_td97 (main_td96 (main_td95 s))) := rfl

/-- From the trigger pulse, four steps of `main` with no interrupt reach the
loop test in the state that trigger pulse and arming produce. -/
theorem mainSteps_trigger_arm (p1 p2 : Nat) (s : State) :
    fineRun [.main p1 p2, .main p1 p2, .main p1 p2, .main p1 p2] ⟨Loc.trigger, s⟩ =
      ⟨Loc.atWhile, main_arm (main_trigger p1 p2 s)⟩ := rfl

/-- From line 95, four steps of `main` with no interrupt perform the teardown. -/
theorem mainSteps_teardown (p1 p2 : Nat) (s : State) :
    fineRun [.main p1 p2, .main p1 p2, .main p1 p2, .main p1 p2] ⟨Loc.td95, s⟩ =
      ⟨Loc.quiet, main_teardown s⟩ := rfl

/-- From the loop test with the condition true, five steps of `main` with no
interrupt perform one pass and are back at the loop test (a pass takes at
most five steps; `main` is at the loop test after three, four or five). -/
theorem mainSteps_pass (p1 p2 : Nat) (s : State) (hC : s.conversionComplete = 0) :
    ∃ k, k ≤ 5 ∧
      fineRun (List.replicate k (FineEvent.main p1 p2)) ⟨Loc.atWhile, s⟩ =
        ⟨Loc.atWhile, main_loopBody s⟩ := by
  by_cases h1 : s.edgeDetect = 1
  · refine ⟨4, by decide, ?_⟩
    have h2 : (main_risingBranch s).edgeDetect ≠ 3 := by
      simp [main_risingBranch, time_stamp, cli, sei, h1]
    simp [fineRun, fineStep, mainStep, main_loopCond, hC, h1, h2, loopBody_eq_branches]
  · by_cases h3 : s.edgeDetect = 3
    · refine ⟨4, by decide, ?_⟩
      simp [fineRun, fineStep, mainStep, main_loopCond, hC, h1, h3, loopBody_eq_branches]
    · refine ⟨3, by decide, ?_⟩
      simp [fineRun, fineStep, mainStep, main_loopCond, hC, h1, h3, loopBody_eq_branches]

theorem fineRun_cons (e : FineEvent) (evs : List FineEvent) (c : Config) :
    fineRun (e :: evs) c = fineRun evs (fineStep c e) := rfl

/-- The rising-edge branch leaves `distance`, its write history, `SPDR` and
`conversionComplete` as they were. -/
theorem risingBranch_frame (s : State) :
    (main_risingBranch s).distance = s.distance ∧
    (main_risingBranch s).distanceLog = s.distanceLog ∧
    (main_risingBranch s).SPDR = s.SPDR ∧
    (main_risingBranch s).conversionComplete = s.conversionComplete := by
  unfold main_risingBranch time_stamp
  simp [cli, sei]

/-- The resolve branch writes `distance` once, leaves its low byte in `SPDR`
and raises `conversionComplete`. -/
theorem resolveBranch_effect (s : State) :
    (main_resolveBranch s).distanceLog = s.distanceLog ++ [(main_resolveBranch s).distance] ∧
    (main_resolveBranch s).SPDR = low (main_resolveBranch s).distance ∧
    (main_resolveBranch s).conversionComplete = 1 := by
  unfold main_resolveBranch time_stamp
  simp [cli, sei]

/-- A step of `main` other than the resolve branch leaves `distance`, its
write history and `SPDR` as they were. -/
theorem mainStep_frame (p1 p2 : Nat) (c : Config) (h : c.loc ≠ Loc.inResolve) :
    (mainStep p1 p2 c).st.distance = c.st.distance ∧
    (mainStep p1 p2 c).st.distanceLog = c.st.distanceLog ∧
    (mainStep p1 p2 c).st.SPDR = c.st.SPDR := by
  obtain ⟨loc, st⟩ := c
  cases loc <;>
    first
    | exact absurd rfl h
    | (simp only [mainStep]; split <;> exact ⟨rfl, rfl, rfl⟩)
    | exact ⟨rfl, rfl, rfl⟩

/-! ## The publisher relation at the grain of single statements -/

/-- Every fine-grained event keeps `SPDR` a byte of the current `distance`. -/
theorem fineStep_servesCurrentDistance (c : Config) (e : FineEvent)
    (h : servesCurrentDistance c.st) : servesCurrentDistance (fineStep c e).st := by
  cases e with
  | capture icr => exact h
  | timeout => left; simp [fineStep, ISR_TIMER1_COMPA_vect, low_zero]
  | transfer m => right; simp [fineStep, spiTransfer_state]
  | main p1 p2 =>
    by_cases hl : c.loc = Loc.inResolve
    · left
      have : (fineStep c (FineEvent.main p1 p2)).st = main_resolveBranch c.st := by
        simp [fineStep, mainStep, hl]
      rw [this]
      exact (resolveBranch_effect c.st).2.1
    · obtain ⟨hd, _, hs⟩ := mainStep_frame p1 p2 c hl
      unfold servesCurrentDistance at h ⊢
      simp only [fineStep]
      rw [hd, hs]; exact h

/-- The publisher relation holds after every fine-grained sequence. -/
theorem fineRun_servesCurrentDistance (evs : List FineEvent) (c : Config)
    (h : servesCurrentDistance c.st) : servesCurrentDistance (fineRun evs c).st := by
  induction evs generalizing c with
  | nil => exact h
  | cons e evs ih =>
    rw [fineRun_cons]
    exact ih _ (fineStep_servesCurrentDistance c e h)

/-- A fine-grained event that does not complete a cycle leaves `distance` as
it was. -/
theorem fineStep_distance_of_not_completes (c : Config) (e : FineEvent)
    (h : completesFine c e = false) : (fineStep c e).st.distance = c.st.distance := by
  cases e with
  | capture icr => rfl
  | timeout => simp [completesFine] at h
  | transfer m => simp [fineStep, spiTransfer_state]
  | main p1 p2 =>
    have hl : c.loc ≠ Loc.inResolve := by simpa [completesFine] using h
    exact (mainStep_frame p1 p2 c hl).1

/-- A fine-grained event that is neither a transfer nor a completion leaves
`SPDR` as it was. -/
theorem fineStep_SPDR_of_not_completes (c : Config) (e : FineEvent)
    (h : completesFine c e = false) (ht : ∀ m, e ≠ FineEvent.transfer m) :
    (fineStep c e).st.SPDR = c.st.SPDR := by
  cases e with
  | capture icr => rfl
  | timeout => simp [completesFine] at h
  | transfer m => exact absurd rfl (ht m)
  | main p1 p2 =>
    have hl : c.loc ≠ Loc.inResolve := by simpa [completesFine] using h
    exact (mainStep_frame p1 p2 c hl).2.2

/-- Along a fine-grained sequence without completion `distance` keeps its
value. -/
theorem fineRun_distance_of_noCompletion (evs : List FineEvent) (c : Config)
    (h : noFineCompletion evs c = true) : (fineRun evs c).st.distance = c.st.distance := by
  induction evs generalizing c with
  | nil => rfl
  | cons e evs ih =>
    simp only [noFineCompletion, Bool.and_eq_true, Bool.not_eq_true'] at h
    rw [fineRun_cons, ih _ h.2, fineStep_distance_of_not_completes c e h.1]

/-- Once `SPDR` holds `high distance`, every transfer of a fine-grained
sequence without completion returns that byte. -/
theorem fineMiso_steady (evs : List FineEvent) (c : Config)
    (hn : noFineCompletion evs c = true) (hu : c.st.SPDR = high c.st.distance) :
    fineMiso evs c = List.replicate (countFineTransfers evs) (high c.st.distance) := by
  induction evs generalizing c with
  | nil => rfl
  | cons e evs ih =>
    simp only [noFineCompletion, Bool.and_eq_true, Bool.not_eq_true'] at hn
    have hd := fineStep_distance_of_not_completes c e hn.1
    cases e with
    | transfer m =>
      have hs : (fineStep c (FineEvent.transfer m)).st.SPDR =
          high (fineStep c (FineEvent.transfer m)).st.distance := by
        simp [fineStep, spiTransfer_state]
      have h1 : (spiTransfer m c.st).1 = c.st.SPDR := rfl
      simp only [fineMiso, countFineTransfers, List.replicate_succ]
      rw [ih _ hn.2 hs, hd, h1, hu]
    | capture icr =>
      have hs := fineStep_SPDR_of_not_completes c (FineEvent.capture icr) hn.1 (by intro m; simp)
      have := ih _ hn.2 (by rw [hs, hd]; exact hu)
      simpa [fineMiso, countFineTransfers, hd] using this
    | timeout => simp [completesFine] at hn
    | main p1 p2 =>
      have hs := fineStep_SPDR_of_not_completes c (FineEvent.main p1 p2) hn.1 (by intro m; simp)
      have := ih _ hn.2 (by rw [hs, hd]; exact hu)
      simpa [fineMiso, countFineTransfers, hd] using this

/-- Along a fine-grained sequence without completion the first transfer
returns the content of `SPDR` and every later one returns `high distance`. -/
theorem fineMiso_first_then_high (evs : List FineEvent) (c : Config)
    (hn : noFineCompletion evs c = true) :
    fineMiso evs c = firstThenLater c.st.SPDR (high c.st.distance) (countFineTransfers evs) := by
  induction evs generalizing c with
  | nil => rfl
  | cons e evs ih =>
    simp only [noFineCompletion, Bool.and_eq_true, Bool.not_eq_true'] at hn
    have hd := fineStep_distance_of_not_completes c e hn.1
    cases e with
    | transfer m =>
      have hs : (fineStep c (FineEvent.transfer m)).st.SPDR =
          high (fineStep c (FineEvent.transfer m)).st.distance := by
        simp [fineStep, spiTransfer_state]
      have h1 : (spiTransfer m c.st).1 = c.st.SPDR := rfl
      simp only [fineMiso, countFineTransfers, firstThenLater]
      rw [fineMiso_steady evs _ hn.2 hs, hd, h1]
    | capture icr =>
      have hs := fineStep_SPDR_of_not_completes c (FineEvent.capture icr) hn.1 (by intro m; simp)
      have := ih _ hn.2
      simpa [fineMiso, countFineTransfers, hd, hs] using this
    | timeout => simp [completesFine] at hn
    | main p1 p2 =>
      have hs := fineStep_SPDR_of_not_completes c (FineEvent.main p1 p2) hn.1 (by intro m; simp)
      have := ih _ hn.2
      simpa [fineMiso, countFineTransfers, hd, hs] using this

/-- The bytes of a window are bytes of one value: when the first byte is the
low or the high byte of `d` and every later byte is the high byte of `d`,
every byte of the window is the low or the high byte of `d`. -/
theorem firstThenLater_bytes (first d n : Nat) (hf : first = low d ∨ first = high d) :
    ∀ b ∈ firstThenLater first (high d) n, b = low d ∨ b = high d := by
  intro b hb
  cases n with
  | zero => simp [firstThenLater] at hb
  | succ n =>
    simp only [firstThenLater, List.mem_cons] at hb
    rcases hb with hb | hb
    · rw [hb]; exact hf
    · right; exact List.eq_of_mem_replicate hb

/-! ## Writes to `distance` within a cycle, at the grain of single statements -/

/-- The cycle invariant depends on the state only through
`conversionComplete`, `distance` and its write history. -/
theorem cycleInvNoTimeout_congr (log0 : List Nat) (loc : Loc) (st st' : State)
    (hc : st'.conversionComplete = st.conversionComplete)
    (hd : st'.distance = st.distance) (hl : st'.distanceLog = st.distanceLog)
    (h : cycleInvNoTimeout log0 ⟨loc, st⟩) : cycleInvNoTimeout log0 ⟨loc, st'⟩ := by
  cases loc <;> simp only [cycleInvNoTimeout, writtenAtMostOnce, hc, hd, hl] at h ⊢ <;> exact h

/-- Every fine-grained event other than a timeout keeps the cycle invariant,
as long as `main` stays within the cycle. -/
theorem fineStep_cycleInvNoTimeout (log0 : List Nat) (c : Config) (e : FineEvent)
    (hne : e ≠ FineEvent.timeout) (hl : leavesCycle c e = false)
    (h : cycleInvNoTimeout log0 c) : cycleInvNoTimeout log0 (fineStep c e) := by
  obtain ⟨loc, st⟩ := c
  cases e with
  | capture icr => exact cycleInvNoTimeout_congr log0 loc st _ rfl rfl rfl h
  | timeout => exact absurd rfl hne
  | transfer m => exact cycleInvNoTimeout_congr log0 loc st _ rfl rfl rfl h
  | main p1 p2 =>
    cases loc with
    | trigger => simp [cycleInvNoTimeout] at h
    | arm68 => exact h
    | arm70 => exact h
    | arm72 => exact Or.inl h
    | atWhile =>
      simp only [cycleInvNoTimeout, writtenAtMostOnce] at h
      simp only [fineStep, mainStep, main_loopCond]
      rcases h with ⟨hc, hlog⟩ | ⟨hc, hd⟩
      · simp only [hc, beq_self_eq_true, if_true]; exact ⟨hc, hlog⟩
      · simp only [hc]; exact ⟨hc, hd⟩
    | atIf1 =>
      simp only [fineStep, mainStep]
      split <;> exact h
    | inRising =>
      obtain ⟨_, hlg, _, hcc⟩ := risingBranch_frame st
      simp only [cycleInvNoTimeout] at h
      simp only [fineStep, mainStep, cycleInvNoTimeout]
      rw [hlg, hcc]; exact h
    | atIf2 =>
      simp only [fineStep, mainStep]
      split
      · exact h
      · exact Or.inl h
    | inResolve =>
      obtain ⟨hlg, _, hcc⟩ := resolveBranch_effect st
      simp only [cycleInvNoTimeout] at h
      simp only [fineStep, mainStep, cycleInvNoTimeout, writtenAtMostOnce]
      right
      refine ⟨hcc, (main_resolveBranch st).distance, ?_, rfl⟩
      rw [hlg, h.2]
    | td95 =>
      simp only [cycleInvNoTimeout] at h
      exact ⟨rfl, h.2⟩
    | td96 => exact h
    | td97 => exact h
    | td100 => exact h
    | quiet => simp [leavesCycle] at hl

/-- The cycle invariant holds along every fine-grained sequence without a
timeout that stays within the cycle. -/
theorem fineRun_cycleInvNoTimeout (log0 : List Nat) (evs : List FineEvent) (c : Config)
    (hT : countTimeouts evs = 0) (hw : withinCycle evs c = true)
    (h : cycleInvNoTimeout log0 c) : cycleInvNoTimeout log0 (fineRun evs c) := by
  induction evs generalizing c with
  | nil => exact h
  | cons e evs ih =>
    simp only [withinCycle, Bool.and_eq_true, Bool.not_eq_true'] at hw
    have hne : e ≠ FineEvent.timeout := by
      intro he; rw [he] at hT; simp [countTimeouts] at hT
    have hT' : countTimeouts evs = 0 := by
      cases e <;> simp_all [countTimeouts]
    rw [fineRun_cons]
    exact ih _ hT' hw.2 (fineStep_cycleInvNoTimeout log0 c e hne hw.1 h)

/-- Within the cycle a step of `main` never lands on the trigger pulse. -/
theorem mainStep_loc_ne_trigger (p1 p2 : Nat) (c : Config) (hq : c.loc ≠ Loc.quiet) :
    (mainStep p1 p2 c).loc ≠ Loc.trigger := by
  obtain ⟨loc, st⟩ := c
  cases loc <;>
    first
    | exact absurd rfl hq
    | (simp only [mainStep]; split <;> simp)
    | simp [mainStep]

/-- Once the resolve branch has run and `main` is at the loop test or past
it, a step of `main` within the cycle keeps it there. -/
theorem mainStep_resolveDone (p1 p2 : Nat) (c : Config) (hq : c.loc ≠ Loc.quiet)
    (h : resolveDone c) : resolveDone (mainStep p1 p2 c) := by
  obtain ⟨loc, st⟩ := c
  cases loc with
  | atWhile =>
    have hc : st.conversionComplete ≠ 0 := by
      simpa [resolveDone, afterClear] using h
    simp [mainStep, main_loopCond, hc, resolveDone]
  | td95 => simp [mainStep, resolveDone, afterClear]
  | td96 => simp [mainStep, resolveDone, afterClear]
  | td97 => simp [mainStep, resolveDone, afterClear]
  | td100 => simp [mainStep, resolveDone, afterClear]
  | quiet => exact absurd rfl hq
  | trigger => simp [resolveDone, afterClear] at h
  | arm68 => simp [resolveDone, afterClear] at h
  | arm70 => simp [resolveDone, afterClear] at h
  | arm72 => simp [resolveDone, afterClear] at h
  | atIf1 => simp [resolveDone, afterClear] at h
  | inRising => simp [resolveDone, afterClear] at h
  | atIf2 => simp [resolveDone, afterClear] at h
  | inResolve => simp [resolveDone, afterClear] at h

/-- One fine-grained event within the cycle: a timeout adds one write, the
resolve branch adds one write and can run only if it has not run before, and
no other event writes `distance`. -/
theorem fineStep_writeCount (c : Config) (e : FineEvent) (n r : Nat)
    (hr : r ≤ 1) (hlen : c.st.distanceLog.length = n + r)
    (hd : r = 1 → resolveDone c) (hnt : c.loc ≠ Loc.trigger)
    (hl : leavesCycle c e = false) :
    ∃ r', r' ≤ 1 ∧
      (fineStep c e).st.distanceLog.length = n + countTimeouts [e] + r' ∧
      (r' = 1 → resolveDone (fineStep c e)) ∧ (fineStep c e).loc ≠ Loc.trigger := by
  cases e with
  | capture icr =>
    exact ⟨r, hr, by simpa [countTimeouts, fineStep, captureEvent, ISR_TIMER1_CAPT_vect] using hlen,
      fun h1 => by simpa [resolveDone, fineStep, captureEvent, ISR_TIMER1_CAPT_vect] using hd h1,
      hnt⟩
  | transfer m =>
    exact ⟨r, hr, by simpa [countTimeouts, fineStep, spiTransfer_state] using hlen,
      fun h1 => by simpa [resolveDone, fineStep, spiTransfer_state] using hd h1, hnt⟩
  | timeout =>
    refine ⟨r, hr, ?_, ?_, hnt⟩
    · simp [countTimeouts, fineStep, ISR_TIMER1_COMPA_vect, hlen]; omega
    · intro h1
      have := hd h1
      unfold resolveDone at this ⊢
      rcases this with ⟨ha, _⟩ | hb | hc
      · left; exact ⟨ha, by simp [fineStep, ISR_TIMER1_COMPA_vect]⟩
      · right; left; exact hb
      · right; right; exact hc
  | main p1 p2 =>
    have hq : c.loc ≠ Loc.quiet := by simpa [leavesCycle] using hl
    by_cases hres : c.loc = Loc.inResolve
    · have hr0 : r = 0 := by
        rcases Nat.le_one_iff_eq_zero_or_eq_one.mp hr with h0 | h1
        · exact h0
        · have := hd h1
          simp [resolveDone, afterClear, hres] at this
      have hst : fineStep c (FineEvent.main p1 p2) = ⟨Loc.atWhile, main_resolveBranch c.st⟩ := by
        simp [fineStep, mainStep, hres]
      obtain ⟨hlg, _, hcc⟩ := resolveBranch_effect c.st
      refine ⟨1, le_refl 1, ?_, ?_, ?_⟩
      · rw [hst]
        simp only [countTimeouts]
        rw [hlg]
        simp [hlen, hr0]
      · intro _
        rw [hst]
        left
        exact ⟨rfl, by rw [hcc]; decide⟩
      · rw [hst]; simp
    · obtain ⟨_, hlg, _⟩ := mainStep_frame p1 p2 c hres
      refine ⟨r, hr, ?_, ?_, ?_⟩
      · simp only [fineStep, countTimeouts]
        rw [hlg, hlen]
        omega
      · intro h1
        exact mainStep_resolveDone p1 p2 c hq (hd h1)
      · exact mainStep_loc_ne_trigger p1 p2 c hq

theorem countTimeouts_cons (e : FineEvent) (evs : List FineEvent) :
    countTimeouts (e :: evs) = countTimeouts [e] + countTimeouts evs := by
  cases e <;> simp only [countTimeouts] <;> omega

/-- Along every fine-grained sequence within the cycle the number of writes
to `distance` is the number of timeouts delivered plus at most one. -/
theorem fineRun_writeCount (evs : List FineEvent) (c : Config) (n r : Nat)
    (hr : r ≤ 1) (hlen : c.st.distanceLog.length = n + r)
    (hd : r = 1 → resolveDone c) (hnt : c.loc ≠ Loc.trigger)
    (hw : withinCycle evs c = true) :
    ∃ r', r' ≤ 1 ∧ (fineRun evs c).st.distanceLog.length = n + countTimeouts evs + r' := by
  induction evs generalizing c n r with
  | nil => exact ⟨r, hr, by simpa [fineRun, countTimeouts] using hlen⟩
  | cons e evs ih =>
    simp only [withinCycle, Bool.and_eq_true, Bool.not_eq_true'] at hw
    obtain ⟨r1, hr1, hlen1, hd1, hnt1⟩ := fineStep_writeCount c e n r hr hlen hd hnt hw.1
    obtain ⟨r2, hr2, hlen2⟩ := ih (fineStep c e) (n + countTimeouts [e]) r1 hr1 hlen1 hd1 hnt1 hw.2
    refine ⟨r2, hr2, ?_⟩
    have hcons := countTimeouts_cons e evs
    rw [fineRun_cons, hlen2]
    omega

/-- In a cycle without timeout `distance` has been written at most once at
every point. -/
theorem cycleInvNoTimeout_atMostOnce (log0 : List Nat) (c : Config)
    (h : cycleInvNoTimeout log0 c) :
    c.st.distanceLog = log0 ∨ ∃ d, c.st.distanceLog = log0 ++ [d] ∧ c.st.distance = d := by
  obtain ⟨loc, st⟩ := c
  cases loc <;> simp only [cycleInvNoTimeout, writtenAtMostOnce] at h
  all_goals first
    | exact Or.inl h.2
    | exact Or.inr h.2
    | exact h.elim (fun a => Or.inl a.2) (fun a => Or.inr a.2)

/-- In a cycle without timeout, once the loop has exited `distance` has been
written exactly once. -/
theorem cycleInvNoTimeout_exited (log0 : List Nat) (c : Config)
    (h : cycleInvNoTimeout log0 c)
    (hloc : c.loc = Loc.td95 ∨ afterClear c.loc = true) :
    ∃ d, c.st.distanceLog = log0 ++ [d] ∧ c.st.distance = d := by
  obtain ⟨loc, st⟩ := c
  cases loc <;> simp only [cycleInvNoTimeout, afterClear] at h hloc
  all_goals first
    | exact h.2
    | simp at hloc

/-- The second way a timeout makes two writes in one cycle: in scenario 1
taken statement by statement, the test of line 83 has succeeded and
`conversionComplete` is still 0; the timeout handler runs there, before the
`cli()` of line 84, and writes 0; the resolve branch then writes 1400. -/
theorem timeout_before_cli_writes_twice :
    (fineRun fineScenarioToResolveTest startConfig).loc = Loc.inResolve ∧
    (fineRun fineScenarioToResolveTest startConfig).st.conversionComplete = 0 ∧
    (fineRun fineScenarioToResolveTest startConfig).st.distanceLog = [] ∧
    (fineRun (fineScenarioToResolveTest ++ [.timeout, .main 0 0]) startConfig).st.distanceLog =
      [0, 1400] ∧
    (fineRun (fineScenarioToResolveTest ++ [.timeout, .main 0 0]) startConfig).st.distance =
      1400 := by
  decide

/-- C10, amended: in a cycle that starts at line 68 with
`conversionComplete = 0` and runs no further than the delay after the
teardown, for every interleaving of capture interrupts, timeout interrupts
and byte transactions with the single steps of `main` (each test, each block
with interrupts disabled, each teardown statement), the resolve branch writes
`distance` at most once and every timeout interrupt writes it once: the
number of writes is the number of timeouts delivered plus at most one.  When
no timeout is delivered `distance` has been written at most once at every
point of the cycle and exactly once from the exit of the loop to the end of
the teardown.  The timeout handler has no guard: in every state it appends a
write of 0 to `distance` and sets `conversionComplete` to 1. -/
theorem distance_writes_per_cycle (s : State) (evs : List FineEvent)
    (hC : s.conversionComplete = 0)
    (hw : withinCycle evs ⟨Loc.arm68, s⟩ = true) :
    (∃ r, r ≤ 1 ∧
      (fineRun evs ⟨Loc.arm68, s⟩).st.distanceLog.length =
        s.distanceLog.length + countTimeouts evs + r) ∧
    (countTimeouts evs = 0 →
      ((fineRun evs ⟨Loc.arm68, s⟩).st.distanceLog = s.distanceLog ∨
        ∃ d, (fineRun evs ⟨Loc.arm68, s⟩).st.distanceLog = s.distanceLog ++ [d] ∧
          (fineRun evs ⟨Loc.arm68, s⟩).st.distance = d)) ∧
    (countTimeouts evs = 0 →
      ((fineRun evs ⟨Loc.arm68, s⟩).loc = Loc.td95 ∨
        afterClear (fineRun evs ⟨Loc.arm68, s⟩).loc = true) →
      ∃ d, (fineRun evs ⟨Loc.arm68, s⟩).st.distanceLog = s.distanceLog ++ [d] ∧
        (fineRun evs ⟨Loc.arm68, s⟩).st.distance = d) ∧
    (∀ t : State,
      (ISR_TIMER1_COMPA_vect t).distanceLog = t.distanceLog ++ [0] ∧
      (ISR_TIMER1_COMPA_vect t).distance = 0 ∧
      (ISR_TIMER1_COMPA_vect t).conversionComplete = 1) := by
  have h0 : cycleInvNoTimeout s.distanceLog ⟨Loc.arm68, s⟩ := ⟨hC, rfl⟩
  refine ⟨?_, ?_, ?_, ?_⟩
  · exact fineRun_writeCount evs ⟨Loc.arm68, s⟩ s.distanceLog.length 0 (by decide) rfl
      (by intro h; exact absurd h (by decide)) (by simp) hw
  · intro hT
    exact cycleInvNoTimeout_atMostOnce _ _ (fineRun_cycleInvNoTimeout _ evs _ hT hw h0)
  · intro hT hloc
    exact cycleInvNoTimeout_exited _ _ (fineRun_cycleInvNoTimeout _ evs _ hT hw h0) hloc
  · intro t; simp [ISR_TIMER1_COMPA_vect]

/-- Witness for the amended C10: one whole cycle of scenario 1, statement by
statement, from the state after initialisation and trigger pulse; it has no
timeout, ends at the delay after the teardown, and has written 1400 once. -/
theorem distance_writes_per_cycle_witness :
    ((main_trigger 0 0 (main_init resetState)).conversionComplete = 0 ∧
      withinCycle fineScenarioCycle ⟨Loc.arm68, main_trigger 0 0 (main_init resetState)⟩ = true ∧
      countTimeouts fineScenarioCycle = 0 ∧
      ((fineRun fineScenarioCycle
          ⟨Loc.arm68, main_trigger 0 0 (main_init resetState)⟩).loc = Loc.td95 ∨
        afterClear (fineRun fineScenarioCycle
          ⟨Loc.arm68, main_trigger 0 0 (main_init resetState)⟩).loc = true)) ∧
    (∃ d, (fineRun fineScenarioCycle
          ⟨Loc.arm68, main_trigger 0 0 (main_init resetState)⟩).st.distanceLog =
        (main_trigger 0 0 (main_init resetState)).distanceLog ++ [d] ∧
      (fineRun fineScenarioCycle
          ⟨Loc.arm68, main_trigger 0 0 (main_init resetState)⟩).st.distance = d) ∧
    (fineRun fineScenarioCycle
        ⟨Loc.arm68, main_trigger 0 0 (main_init resetState)⟩).st.distanceLog = [1400] :=
  ⟨⟨by decide, by decide, by decide, by decide⟩,
   (distance_writes_per_cycle (main_trigger 0 0 (main_init resetState)) fineScenarioCycle
      (by decide) (by decide)).2.2.1 (by decide) (by decide),
   by decide⟩

/-! ## Pairs of bytes with events between the two transfers -/

theorem countTransfers_append (xs ys : List Event) :
    countTransfers (xs ++ ys) = countTransfers xs + countTransfers ys := by
  induction xs with
  | nil => simp [countTransfers]
  | cons e xs ih =>
    have hcons : (e :: xs) ++ ys = e :: (xs ++ ys) := rfl
    rw [hcons]
    cases e <;> simp only [countTransfers] <;> omega

theorem countFineTransfers_append (xs ys : List FineEvent) :
    countFineTransfers (xs ++ ys) = countFineTransfers xs + countFineTransfers ys := by
  induction xs with
  | nil => simp [countFineTransfers]
  | cons e xs ih =>
    have hcons : (e :: xs) ++ ys = e :: (xs ++ ys) := rfl
    rw [hcons]
    cases e <;> simp only [countFineTransfers] <;> omega

/-- Two transfers with no transfer and no completion between them: the first
returns the content of `SPDR`, the second `high distance`. -/
theorem misoTrace_pair (m1 m2 : Nat) (mid : List Event) (s : State)
    (hmid : countTransfers mid = 0)
    (hn : noCompletion (Event.transfer m1 :: (mid ++ [Event.transfer m2])) s = true) :
    misoTrace (Event.transfer m1 :: (mid ++ [Event.transfer m2])) s =
      [s.SPDR, high s.distance] := by
  rw [misoTrace_first_then_high _ s hn]
  have hc : countTransfers (Event.transfer m1 :: (mid ++ [Event.transfer m2])) = 1 + 1 := by
    simp only [countTransfers, countTransfers_append, hmid]
  rw [hc]
  rfl

/-- The same at the grain of single statements. -/
theorem fineMiso_pair (m1 m2 : Nat) (mid : List FineEvent) (c : Config)
    (hmid : countFineTransfers mid = 0)
    (hn : noFineCompletion (FineEvent.transfer m1 :: (mid ++ [FineEvent.transfer m2])) c = true) :
    fineMiso (FineEvent.transfer m1 :: (mid ++ [FineEvent.transfer m2])) c =
      [c.st.SPDR, high c.st.distance] := by
  rw [fineMiso_first_then_high _ c hn]
  have hc : countFineTransfers (FineEvent.transfer m1 :: (mid ++ [FineEvent.transfer m2])) =
      1 + 1 := by
    simp only [countFineTransfers, countFineTransfers_append, hmid]
  rw [hc]
  rfl

/-- C4, amended: after initialisation and every sequence of events, at the
grain of whole loop passes and at the grain of single statements of `main`,
the byte waiting in `SPDR`, which the next transaction returns, is the low or
the high byte of the `distance` current at that moment.  Over every
following sequence of events without a cycle completion (transfers,
captures, loop passes or steps, teardown, trigger pulse, re-arming),
`distance` keeps that value, the first transfer returns that waiting byte
and every later transfer returns the high byte of the same `distance`; so
two consecutive transfers with any such events between them return bytes of
one and the same `distance`, the second its high byte. -/
theorem polled_pair_of_current_distance (evs mid window : List Event)
    (fevs fmid fwindow : List FineEvent) (m1 m2 : Nat) :
    ((spiTransfer m1 (run evs (main_init resetState))).1 =
        low (run evs (main_init resetState)).distance ∨
      (spiTransfer m1 (run evs (main_init resetState))).1 =
        high (run evs (main_init resetState)).distance) ∧
    (spiTransfer m2 (spiTransfer m1 (run evs (main_init resetState))).2).1 =
      high (run evs (main_init resetState)).distance ∧
    (noCompletion window (run evs (main_init resetState)) = true →
      misoTrace window (run evs (main_init resetState)) =
        firstThenLater (run evs (main_init resetState)).SPDR
          (high (run evs (main_init resetState)).distance) (countTransfers window) ∧
      (∀ b ∈ misoTrace window (run evs (main_init resetState)),
        b = low (run evs (main_init resetState)).distance ∨
        b = high (run evs (main_init resetState)).distance) ∧
      (run window (run evs (main_init resetState))).distance =
        (run evs (main_init resetState)).distance) ∧
    (countTransfers mid = 0 →
      noCompletion (Event.transfer m1 :: (mid ++ [Event.transfer m2]))
        (run evs (main_init resetState)) = true →
      misoTrace (Event.transfer m1 :: (mid ++ [Event.transfer m2]))
          (run evs (main_init resetState)) =
        [(run evs (main_init resetState)).SPDR,
         high (run evs (main_init resetState)).distance]) ∧
    servesCurrentDistance (fineRun fevs startConfig).st ∧
    (noFineCompletion fwindow (fineRun fevs startConfig) = true →
      fineMiso fwindow (fineRun fevs startConfig) =
        firstThenLater (fineRun fevs startConfig).st.SPDR
          (high (fineRun fevs startConfig).st.distance) (countFineTransfers fwindow) ∧
      (∀ b ∈ fineMiso fwindow (fineRun fevs startConfig),
        b = low (fineRun fevs startConfig).st.distance ∨
        b = high (fineRun fevs startConfig).st.distance) ∧
      (fineRun fwindow (fineRun fevs startConfig)).st.distance =
        (fineRun fevs startConfig).st.distance) ∧
    (countFineTransfers fmid = 0 →
      noFineCompletion (FineEvent.transfer m1 :: (fmid ++ [FineEvent.transfer m2]))
        (fineRun fevs startConfig) = true →
      fineMiso (FineEvent.transfer m1 :: (fmid ++ [FineEvent.transfer m2]))
          (fineRun fevs startConfig) =
        [(fineRun fevs startConfig).st.SPDR,
         high (fineRun fevs startConfig).st.distance]) := by
  have h0 : servesCurrentDistance (main_init resetState) := by
    left; decide
  have h := run_servesCurrentDistance evs _ h0
  have hf : servesCurrentDistance (fineRun fevs startConfig).st :=
    fineRun_servesCurrentDistance fevs startConfig h0
  refine ⟨h, ?_, ?_, ?_, hf, ?_, ?_⟩
  · simp [spiTransfer, ISR_SPI_STC_vect]
  · intro hn
    have ht := misoTrace_first_then_high window _ hn
    refine ⟨ht, ?_, run_distance_of_noCompletion window _ hn⟩
    rw [ht]
    exact firstThenLater_bytes _ _ _ h
  · intro hmid hn
    exact misoTrace_pair m1 m2 mid _ hmid hn
  · intro hn
    have ht := fineMiso_first_then_high fwindow _ hn
    refine ⟨ht, ?_, fineRun_distance_of_noCompletion fwindow _ hn⟩
    rw [ht]
    exact firstThenLater_bytes _ _ _ hf
  · intro hmid hn
    exact fineMiso_pair m1 m2 fmid _ hmid hn

/-- Witness for the amended C4: after scenario 1 has published 1400, a
transfer, then teardown, trigger pulse, arming, a capture and the rising-edge
pass of the next cycle, then a second transfer; the two bytes are 120 and 5,
the low and the high byte of 1400. -/
theorem polled_pair_of_current_distance_witness :
    (countTransfers eventsBetweenPair = 0 ∧
      noCompletion (Event.transfer 0 :: (eventsBetweenPair ++ [Event.transfer 0]))
        (run scenario1Events (main_init resetState)) = true) ∧
    misoTrace (Event.transfer 0 :: (eventsBetweenPair ++ [Event.transfer 0]))
        (run scenario1Events (main_init resetState)) =
      [(run scenario1Events (main_init resetState)).SPDR,
       high (run scenario1Events (main_init resetState)).distance] ∧
    (run scenario1Events (main_init resetState)).distance = 1400 ∧
    (run scenario1Events (main_init resetState)).SPDR = low 1400 ∧
    misoTrace (Event.transfer 0 :: (eventsBetweenPair ++ [Event.transfer 0]))
        (run scenario1Events (main_init resetState)) = [120, 5] :=
  ⟨⟨by decide, by decide⟩,
   (polled_pair_of_current_distance scenario1Events eventsBetweenPair [] [] [] [] 0 0).2.2.2.1
      (by decide) (by decide),
   by decide, by decide, by decide⟩

end HCSR04Bridge
